import Mathlib

/-!
# Verification of the duplicate-detection and entity-merge engine

Shallow embedding of `src/lib/duplicates/merge-operations.ts` and of the
duplicate-finding HTTP handler, together with proofs of the specification's
claims about them.

Record ids (Prisma cuid strings in the source) are modelled as `Nat`; the
persistent store is a record of lists, one per table.  Prisma primitives are
embedded as pure list operations (`updateMany` = map over matching rows and
report the match count, `deleteMany` = filter, `findUnique` = `find?`,
`delete`/`update` on a missing id = error).  `prisma.$transaction` is embedded
by the `Except` monad: a failing body yields `.error` and the caller observes
the original, unmodified state.
-/

namespace TakeMeToTheFair

/-- The four mergeable entity kinds (`DuplicateEntityType` in the source:
`"venues" | "events" | "vendors" | "promoters"`). -/
inductive DuplicateEntityType where
  | venues
  | events
  | vendors
  | promoters
deriving DecidableEq, Repr

/-- The polymorphic favoritable kind tag stored in `UserFavorite.favoritableType`
(strings `"venue" | "event" | "vendor" | "promoter"` in the source). -/
inductive FavType where
  | venue
  | event
  | vendor
  | promoter
deriving DecidableEq, Repr

/-- Venue row: the fields this subsystem reads. -/
structure Venue where
  id : Nat
  name : String
  address : String
  city : String
  state : String
deriving DecidableEq, Repr

/-- Event row: the fields this subsystem reads or writes. -/
structure Event where
  id : Nat
  name : String
  description : String
  venueId : Nat
  promoterId : Nat
  viewCount : Nat
deriving DecidableEq, Repr

/-- Vendor row: the fields this subsystem reads. -/
structure Vendor where
  id : Nat
  userId : Nat
  businessName : String
  vendorType : String
deriving DecidableEq, Repr

/-- Promoter row: the fields this subsystem reads. -/
structure Promoter where
  id : Nat
  userId : Nat
  companyName : String
deriving DecidableEq, Repr

/-- `EventVendor` join row (called EventParticipation in the spec), with its
own primary key `id` and the `(eventId, vendorId)` pair. -/
structure EventVendor where
  id : Nat
  eventId : Nat
  vendorId : Nat
deriving DecidableEq, Repr

/-- `UserFavorite` row: primary key `id` plus the polymorphic triple
`(userId, favoritableType, favoritableId)`. -/
structure UserFavorite where
  id : Nat
  userId : Nat
  favoritableType : FavType
  favoritableId : Nat
deriving DecidableEq, Repr

/-- The persistent store: one list per table. -/
structure DB where
  venues : List Venue
  events : List Event
  vendors : List Vendor
  promoters : List Promoter
  eventVendors : List EventVendor
  userFavorites : List UserFavorite
deriving DecidableEq, Repr

/-- Well-formedness of the store: every table's primary keys are distinct
(guaranteed by the database's primary-key constraint). -/
def DB.WF (db : DB) : Prop :=
  (db.venues.map Venue.id).Nodup ∧
  (db.events.map Event.id).Nodup ∧
  (db.vendors.map Vendor.id).Nodup ∧
  (db.promoters.map Promoter.id).Nodup ∧
  (db.eventVendors.map EventVendor.id).Nodup ∧
  (db.userFavorites.map UserFavorite.id).Nodup

instance (db : DB) : Decidable db.WF := by
  unfold DB.WF; infer_instance

/-- The `(eventId, vendorId)` key of a join row, unique per the schema. -/
def evKey (r : EventVendor) : Nat × Nat := (r.eventId, r.vendorId)

/-- The `(userId, favoritableType, favoritableId)` key of a favorite row,
unique per the schema. -/
def favKey (r : UserFavorite) : Nat × FavType × Nat :=
  (r.userId, r.favoritableType, r.favoritableId)

/-! ## Embedded Prisma list primitives -/

/-- `updateMany { where: p, data: f }`: rewrite every matching row, leaving the
others in place. -/
def applyUpdate (p : α → Prop) [DecidablePred p] (f : α → α) (l : List α) : List α :=
  l.map fun x => if p x then f x else x

/-- The `count` reported by `updateMany`: the number of matching rows. -/
def matchCount (p : α → Prop) [DecidablePred p] (l : List α) : Nat :=
  (l.filter fun x => decide (p x)).length

/-- `deleteMany { where: p }`: remove every matching row. -/
def deleteManyRows (p : α → Prop) [DecidablePred p] (l : List α) : List α :=
  l.filter fun x => decide (¬ p x)

/-- `findUnique { where: { id } }` on a table keyed by `key`. -/
def findUniqueBy (key : α → Nat) (i : Nat) (l : List α) : Option α :=
  l.find? fun x => decide (key x = i)

/-- `delete { where: { id } }`: remove the row, failing (Prisma `P2025`) when
no row has that id. -/
def deleteUnique (key : α → Nat) (i : Nat) (l : List α) : Option (List α) :=
  match findUniqueBy key i l with
  | some _ => some (l.filter fun x => decide (¬ key x = i))
  | none => none

/-! ## Merge operation response types (`src/lib/duplicates/types.ts`) -/

/-- Error raised inside the subsystem.  A `recordNotFound` escaping a preview is
the spec's `NotFound`; one aborting a `$transaction` body is surfaced by the
route layer as the spec's `MergeFailed`. -/
inductive MergeError where
  | recordNotFound
deriving DecidableEq, Repr

/-- `RelationshipCounts` from the source: `events?`, `eventVendors?` are
optional, `favorites` always present. -/
structure RelationshipCounts where
  events : Option Nat := none
  eventVendors : Option Nat := none
  favorites : Nat := 0
deriving DecidableEq, Repr

/-- `MergePreviewResponse`.  The source also echoes the two loaded records
(`primary`, `duplicate` with their `_count`s); those echoes do not affect any
claim and are elided here. -/
structure MergePreviewResponse where
  relationshipsToTransfer : RelationshipCounts
  warnings : List String
  canMerge : Bool
deriving DecidableEq, Repr

/-- `MergeResponse`.  The source also re-reads and returns the merged primary
record (`mergedEntity`); the re-read does not change state and is elided. -/
structure MergeResponse where
  success : Bool
  transferredRelationships : RelationshipCounts
  deletedId : Nat
deriving DecidableEq, Repr

/-- JS template-literal rendering of a possibly-`undefined` string
(`primary.promoter?.companyName` and friends). -/
def optStr : Option String → String
  | some s => s
  | none => "undefined"

/-! ## Merge previews (`merge-operations.ts`) -/

/-- `getVenueMergePreview`: loads both venues (with their event `_count`s),
fails when either is missing, counts the duplicate's favorites, and reports
the duplicate's event count and favorite count as transferable. -/
def getVenueMergePreview (primaryId duplicateId : Nat) (db : DB) :
    Except MergeError MergePreviewResponse :=
  match findUniqueBy Venue.id primaryId db.venues,
        findUniqueBy Venue.id duplicateId db.venues with
  | some _, some _ =>
    let favoritesCount := matchCount
      (fun f => f.favoritableType = FavType.venue ∧ f.favoritableId = duplicateId)
      db.userFavorites
    .ok { relationshipsToTransfer :=
            { events := some (matchCount (fun e => e.venueId = duplicateId) db.events),
              favorites := favoritesCount },
          warnings := [],
          canMerge := true }
  | _, _ => .error .recordNotFound

/-- `getPromoterMergePreview`: as for venues, plus a warning when the two
promoters are linked to different user accounts. -/
def getPromoterMergePreview (primaryId duplicateId : Nat) (db : DB) :
    Except MergeError MergePreviewResponse :=
  match findUniqueBy Promoter.id primaryId db.promoters,
        findUniqueBy Promoter.id duplicateId db.promoters with
  | some primary, some duplicate =>
    let warnings : List String :=
      if primary.userId ≠ duplicate.userId then
        ["These promoters are linked to different user accounts. Merging will only transfer events and favorites, not the user account."]
      else []
    let favoritesCount := matchCount
      (fun f => f.favoritableType = FavType.promoter ∧ f.favoritableId = duplicateId)
      db.userFavorites
    .ok { relationshipsToTransfer :=
            { events := some (matchCount (fun e => e.promoterId = duplicateId) db.events),
              favorites := favoritesCount },
          warnings := warnings,
          canMerge := true }
  | _, _ => .error .recordNotFound

/-- The duplicate vendor's join rows whose event already hosts the primary
vendor (`overlappingEvents` in `getVendorMergePreview`). -/
def vendorOverlap (primaryId duplicateId : Nat) (db : DB) : List EventVendor :=
  let primaryEventIds :=
    (db.eventVendors.filter fun r => decide (r.vendorId = primaryId)).map EventVendor.eventId
  (db.eventVendors.filter fun r => decide (r.vendorId = duplicateId)).filter
    fun r => decide (r.eventId ∈ primaryEventIds)

/-- `getVendorMergePreview`: user-account warning, favorite count, and the
join-row count minus the overlap, with a warning when the overlap is
non-empty. -/
def getVendorMergePreview (primaryId duplicateId : Nat) (db : DB) :
    Except MergeError MergePreviewResponse :=
  match findUniqueBy Vendor.id primaryId db.vendors,
        findUniqueBy Vendor.id duplicateId db.vendors with
  | some primary, some duplicate =>
    let warnings0 : List String :=
      if primary.userId ≠ duplicate.userId then
        ["These vendors are linked to different user accounts. Merging will only transfer event participations and favorites, not the user account."]
      else []
    let favoritesCount := matchCount
      (fun f => f.favoritableType = FavType.vendor ∧ f.favoritableId = duplicateId)
      db.userFavorites
    let overlapping := vendorOverlap primaryId duplicateId db
    let n := toString overlapping.length
    let warnings :=
      if overlapping.length > 0 then
        warnings0 ++ [n ++ " event(s) have both vendors assigned. Duplicate assignments will be removed."]
      else warnings0
    let dupCount := matchCount (fun r => r.vendorId = duplicateId) db.eventVendors
    .ok { relationshipsToTransfer :=
            { eventVendors := some (dupCount - overlapping.length),
              favorites := favoritesCount },
          warnings := warnings,
          canMerge := true }
  | _, _ => .error .recordNotFound

/-- The duplicate event's join rows whose vendor already participates in the
primary event (`overlappingVendors` in `getEventMergePreview`). -/
def eventOverlap (primaryId duplicateId : Nat) (db : DB) : List EventVendor :=
  let primaryVendorIds :=
    (db.eventVendors.filter fun r => decide (r.eventId = primaryId)).map EventVendor.vendorId
  (db.eventVendors.filter fun r => decide (r.eventId = duplicateId)).filter
    fun r => decide (r.vendorId ∈ primaryVendorIds)

/-- `getEventMergePreview`: warnings for differing promoters/venues (rendering
the included names), favorite count, join-row count minus overlap. -/
def getEventMergePreview (primaryId duplicateId : Nat) (db : DB) :
    Except MergeError MergePreviewResponse :=
  match findUniqueBy Event.id primaryId db.events,
        findUniqueBy Event.id duplicateId db.events with
  | some primary, some duplicate =>
    let pPromoterName := optStr ((findUniqueBy Promoter.id primary.promoterId db.promoters).map Promoter.companyName)
    let dPromoterName := optStr ((findUniqueBy Promoter.id duplicate.promoterId db.promoters).map Promoter.companyName)
    let pVenueName := optStr ((findUniqueBy Venue.id primary.venueId db.venues).map Venue.name)
    let dVenueName := optStr ((findUniqueBy Venue.id duplicate.venueId db.venues).map Venue.name)
    let warnings0 : List String :=
      if primary.promoterId ≠ duplicate.promoterId then
        ["Events have different promoters: \"" ++ pPromoterName ++ "\" vs \"" ++ dPromoterName ++ "\""]
      else []
    let warnings1 : List String :=
      if primary.venueId ≠ duplicate.venueId then
        warnings0 ++ ["Events have different venues: \"" ++ pVenueName ++ "\" vs \"" ++ dVenueName ++ "\""]
      else warnings0
    let favoritesCount := matchCount
      (fun f => f.favoritableType = FavType.event ∧ f.favoritableId = duplicateId)
      db.userFavorites
    let overlapping := eventOverlap primaryId duplicateId db
    let n := toString overlapping.length
    let warnings :=
      if overlapping.length > 0 then
        warnings1 ++ [n ++ " vendor(s) are assigned to both events. Duplicate assignments will be removed."]
      else warnings1
    let dupCount := matchCount (fun r => r.eventId = duplicateId) db.eventVendors
    .ok { relationshipsToTransfer :=
            { eventVendors := some (dupCount - overlapping.length),
              favorites := favoritesCount },
          warnings := warnings,
          canMerge := true }
  | _, _ => .error .recordNotFound

/-- `getMergePreview`: dispatch on the entity kind. -/
def getMergePreview (type : DuplicateEntityType) (primaryId duplicateId : Nat)
    (db : DB) : Except MergeError MergePreviewResponse :=
  match type with
  | .venues => getVenueMergePreview primaryId duplicateId db
  | .events => getEventMergePreview primaryId duplicateId db
  | .vendors => getVendorMergePreview primaryId duplicateId db
  | .promoters => getPromoterMergePreview primaryId duplicateId db

/-! ## Merge executors (`merge-operations.ts`)

Each `merge*Tx` embeds the body of the corresponding source function's
`prisma.$transaction` callback plus the response it builds; `runExecuteMerge`
embeds the transaction semantics: a failing body leaves the store untouched. -/

/-- The user ids already favoriting the primary under kind `k` (the
executor's `existingUserIds`). -/
def existingUserIds (k : FavType) (primaryId : Nat) (favs : List UserFavorite) :
    List Nat :=
  (favs.filter fun f =>
    decide (f.favoritableType = k ∧ f.favoritableId = primaryId)).map UserFavorite.userId

/-- The executor's `favoritesToTransfer` filter: a favorite of the duplicate
whose user does not already favorite the primary. -/
def favTransferPred (k : FavType) (primaryId duplicateId : Nat)
    (favs : List UserFavorite) (f : UserFavorite) : Prop :=
  f.favoritableType = k ∧ f.favoritableId = duplicateId ∧
    f.userId ∉ existingUserIds k primaryId favs

instance (k : FavType) (pid did : Nat) (favs : List UserFavorite)
    (f : UserFavorite) : Decidable (favTransferPred k pid did favs f) := by
  unfold favTransferPred; infer_instance

/-- The favorites-transfer block repeated verbatim in all four merge
functions: collect the user ids already favoriting the primary, load the
duplicate's favorites from other users, re-point those rows (matched by
primary key) to the primary, then delete the duplicate's remaining
favorites.  Returns the new favorites table and the reported transfer
count. -/
def transferFavorites (k : FavType) (primaryId duplicateId : Nat)
    (favs : List UserFavorite) : List UserFavorite × Nat :=
  let favoritesToTransfer :=
    favs.filter fun f => decide (favTransferPred k primaryId duplicateId favs f)
  let transferIds := favoritesToTransfer.map UserFavorite.id
  let updated :=
    if favoritesToTransfer.length > 0 then
      applyUpdate (fun f => f.id ∈ transferIds)
        (fun f => { f with favoritableId := primaryId }) favs
    else favs
  let afterDelete := deleteManyRows
    (fun f => f.favoritableType = k ∧ f.favoritableId = duplicateId) updated
  (afterDelete,
   if favoritesToTransfer.length > 0 then favoritesToTransfer.length else 0)

/-- `mergeVenues`' transaction body: re-point events, transfer favorites,
delete the duplicate venue (aborting when it does not exist). -/
def mergeVenuesTx (primaryId duplicateId : Nat) (db : DB) :
    Except MergeError (DB × MergeResponse) :=
  let evCount := matchCount (fun e => e.venueId = duplicateId) db.events
  let events1 := applyUpdate (fun e => e.venueId = duplicateId)
    (fun e => { e with venueId := primaryId }) db.events
  let favResult := transferFavorites FavType.venue primaryId duplicateId db.userFavorites
  match deleteUnique Venue.id duplicateId db.venues with
  | none => .error .recordNotFound
  | some venues1 =>
    .ok ({ db with events := events1, userFavorites := favResult.1, venues := venues1 },
         { success := true,
           transferredRelationships := { events := some evCount, favorites := favResult.2 },
           deletedId := duplicateId })

/-- `mergePromoters`' transaction body: same shape as venues over
`promoterId`. -/
def mergePromotersTx (primaryId duplicateId : Nat) (db : DB) :
    Except MergeError (DB × MergeResponse) :=
  let evCount := matchCount (fun e => e.promoterId = duplicateId) db.events
  let events1 := applyUpdate (fun e => e.promoterId = duplicateId)
    (fun e => { e with promoterId := primaryId }) db.events
  let favResult := transferFavorites FavType.promoter primaryId duplicateId db.userFavorites
  match deleteUnique Promoter.id duplicateId db.promoters with
  | none => .error .recordNotFound
  | some promoters1 =>
    .ok ({ db with events := events1, userFavorites := favResult.1, promoters := promoters1 },
         { success := true,
           transferredRelationships := { events := some evCount, favorites := favResult.2 },
           deletedId := duplicateId })

/-- `mergeVendors`' transaction body: delete the duplicate's join rows for
events already hosting the primary, re-point the rest, transfer favorites,
delete the duplicate vendor. -/
def mergeVendorsTx (primaryId duplicateId : Nat) (db : DB) :
    Except MergeError (DB × MergeResponse) :=
  let primaryEventIds :=
    (db.eventVendors.filter fun r => decide (r.vendorId = primaryId)).map EventVendor.eventId
  let ev1 := deleteManyRows
    (fun r => r.vendorId = duplicateId ∧ r.eventId ∈ primaryEventIds) db.eventVendors
  let evCount := matchCount (fun r => r.vendorId = duplicateId) ev1
  let ev2 := applyUpdate (fun r => r.vendorId = duplicateId)
    (fun r => { r with vendorId := primaryId }) ev1
  let favResult := transferFavorites FavType.vendor primaryId duplicateId db.userFavorites
  match deleteUnique Vendor.id duplicateId db.vendors with
  | none => .error .recordNotFound
  | some vendors1 =>
    .ok ({ db with eventVendors := ev2, userFavorites := favResult.1, vendors := vendors1 },
         { success := true,
           transferredRelationships := { eventVendors := some evCount, favorites := favResult.2 },
           deletedId := duplicateId })

/-- The tail of `mergeEvents`' transaction body after the view-count step:
favorites transfer and deletion of the duplicate event from the
already-view-combined `events1`, then the response. -/
def mergeEventsFinish (primaryId duplicateId : Nat) (db : DB)
    (ev2 : List EventVendor) (evCount : Nat) (events1 : List Event) :
    Except MergeError (DB × MergeResponse) :=
  let favResult := transferFavorites FavType.event primaryId duplicateId db.userFavorites
  match deleteUnique Event.id duplicateId events1 with
  | none => .error .recordNotFound
  | some events2 =>
    .ok ({ db with eventVendors := ev2, events := events2, userFavorites := favResult.1 },
         { success := true,
           transferredRelationships := { eventVendors := some evCount, favorites := favResult.2 },
           deletedId := duplicateId })

/-- `mergeEvents`' transaction body: join-row overlap deletion and re-point,
view-count combination (the `tx.event.update` on the primary aborts when the
primary does not exist; the whole combination is skipped when the duplicate
does not exist), then `mergeEventsFinish` (favorites transfer, deletion of
the duplicate event). -/
def mergeEventsTx (primaryId duplicateId : Nat) (db : DB) :
    Except MergeError (DB × MergeResponse) :=
  let primaryVendorIds :=
    (db.eventVendors.filter fun r => decide (r.eventId = primaryId)).map EventVendor.vendorId
  let ev1 := deleteManyRows
    (fun r => r.eventId = duplicateId ∧ r.vendorId ∈ primaryVendorIds) db.eventVendors
  let evCount := matchCount (fun r => r.eventId = duplicateId) ev1
  let ev2 := applyUpdate (fun r => r.eventId = duplicateId)
    (fun r => { r with eventId := primaryId }) ev1
  match findUniqueBy Event.id duplicateId db.events with
  | none => mergeEventsFinish primaryId duplicateId db ev2 evCount db.events
  | some dupEv =>
    match findUniqueBy Event.id primaryId db.events with
    | none => .error .recordNotFound
    | some _ =>
      mergeEventsFinish primaryId duplicateId db ev2 evCount
        (applyUpdate (fun e => e.id = primaryId)
          (fun e => { e with viewCount := e.viewCount + dupEv.viewCount }) db.events)

/-- `executeMerge`: dispatch on the entity kind. -/
def executeMergeTx (type : DuplicateEntityType) (primaryId duplicateId : Nat)
    (db : DB) : Except MergeError (DB × MergeResponse) :=
  match type with
  | .venues => mergeVenuesTx primaryId duplicateId db
  | .events => mergeEventsTx primaryId duplicateId db
  | .vendors => mergeVendorsTx primaryId duplicateId db
  | .promoters => mergePromotersTx primaryId duplicateId db

/-- `prisma.$transaction` semantics around `executeMerge`: on success the new
store is visible, on failure the original store is the one any reader sees. -/
def runExecuteMerge (type : DuplicateEntityType) (primaryId duplicateId : Nat)
    (db : DB) : DB × Except MergeError MergeResponse :=
  match executeMergeTx type primaryId duplicateId db with
  | .ok (db', r) => (db', .ok r)
  | .error e => (db, .error e)

/-! ## Similarity scoring and pair finding

The module `src/lib/duplicates/similarity.ts` (comparison-string builders,
similarity scorer, `findDuplicatePairs`) is imported by the duplicate-finding
route but its source is not part of the repository snapshot; the definitions
below are modelled from the specification (§4.1–§4.3). -/

/-- Modelled from the spec: diacritic stripping used by the §4.1 normalizer
(the similarity module's source is absent); maps common accented Latin
letters to their base letter and leaves every other character unchanged. -/
def stripDiacritic (c : Char) : Char :=
  if c ∈ ['à', 'á', 'â', 'ã', 'ä', 'å'] then 'a'
  else if c ∈ ['è', 'é', 'ê', 'ë'] then 'e'
  else if c ∈ ['ì', 'í', 'î', 'ï'] then 'i'
  else if c ∈ ['ò', 'ó', 'ô', 'õ', 'ö'] then 'o'
  else if c ∈ ['ù', 'ú', 'û', 'ü'] then 'u'
  else if c = 'ç' then 'c'
  else if c = 'ñ' then 'n'
  else c

/-- Split a character list on spaces, dropping empty fragments; `acc` holds
the current word reversed. -/
def splitWordsAux (acc : List Char) : List Char → List String
  | [] => if acc.isEmpty then [] else [String.mk acc.reverse]
  | c :: rest =>
    if c = ' ' then
      if acc.isEmpty then splitWordsAux [] rest
      else String.mk acc.reverse :: splitWordsAux [] rest
    else splitWordsAux (c :: acc) rest

/-- The space-delimited words of a character list. -/
def splitWords (cs : List Char) : List String := splitWordsAux [] cs

/-- Modelled from the spec: the §4.1 normalizer's token list (the similarity
module's source is absent).  Lower-cases, strips diacritics, strips
punctuation (every character that is neither alphanumeric nor whitespace),
and splits on whitespace; joining the tokens with single spaces realises
"collapse internal whitespace" and "trim". -/
def normTokens (s : String) : List String :=
  let cleaned := ((s.toList.map Char.toLower).map stripDiacritic).filter
    fun c => c.isAlphanum ∨ c.isWhitespace
  splitWords (cleaned.map fun c => if c.isWhitespace then ' ' else c)

/-- Modelled from the spec: the §4.1 normalizer (the similarity module's
source is absent): normalized text is the token list joined by single
spaces. -/
def normalizeText (s : String) : String :=
  String.intercalate " " (normTokens s)

/-- The deduplicated whitespace-delimited token set of a normalized string. -/
def tokenSet (s : String) : List String :=
  (splitWords s.toList).dedup

/-- Modelled from the spec: the §4.2 similarity scorer (the similarity
module's source is absent): Jaccard index of the two token sets, `0` when
both are empty. -/
def similarity (a b : String) : ℚ :=
  let ta := tokenSet a
  let tb := tokenSet b
  if ta.isEmpty ∧ tb.isEmpty then 0
  else
    let inter := ta.filter fun w => w ∈ tb
    let union := ta ++ tb.filter fun w => w ∉ ta
    mkRat inter.length union.length

/-- Modelled from the spec: venue comparison string (§4.1): name, address,
city, state, each normalized. -/
def getVenueComparisonString (v : Venue) : String :=
  String.intercalate " "
    [normalizeText v.name, normalizeText v.address, normalizeText v.city,
     normalizeText v.state]

/-- Modelled from the spec: event comparison string (§4.1): name, first 100
characters of the description, venue name, promoter company name (the
included names the route loads with each event; missing associations
contribute the empty string), each normalized. -/
def getEventComparisonString (db : DB) (e : Event) : String :=
  let venueName := ((findUniqueBy Venue.id e.venueId db.venues).map Venue.name).getD ""
  let promoterName :=
    ((findUniqueBy Promoter.id e.promoterId db.promoters).map Promoter.companyName).getD ""
  String.intercalate " "
    [normalizeText e.name, normalizeText (e.description.take 100),
     normalizeText venueName, normalizeText promoterName]

/-- Modelled from the spec: vendor comparison string (§4.1): business name and
vendor type, each normalized. -/
def getVendorComparisonString (v : Vendor) : String :=
  String.intercalate " " [normalizeText v.businessName, normalizeText v.vendorType]

/-- Modelled from the spec: promoter comparison string (§4.1): the company
name, normalized. -/
def getPromoterComparisonString (p : Promoter) : String :=
  normalizeText p.companyName

/-- A candidate pair as returned by the pair finder. -/
structure DuplicatePair (E : Type) where
  entity1 : E
  entity2 : E
  similarity : ℚ
deriving DecidableEq, Repr

/-- All ordered pairs `(x, y)` with `x` strictly before `y` in the list, in
collection order of `x` then `y`. -/
def allOrderedPairs : List α → List (α × α)
  | [] => []
  | x :: xs => (xs.map fun y => (x, y)) ++ allOrderedPairs xs

/-- Modelled from the spec: `findDuplicatePairs` (§4.3; the similarity
module's source is absent): every unordered pair `(i, j)`, `i < j`, of the
collection is scored, and a pair is kept iff its similarity reaches the
threshold; output keeps collection order. -/
def findDuplicatePairs (entities : List E) (toComparisonString : E → String)
    (threshold : ℚ) : List (DuplicatePair E) :=
  (allOrderedPairs entities).filterMap fun p =>
    let s := similarity (toComparisonString p.1) (toComparisonString p.2)
    if s ≥ threshold then some ⟨p.1, p.2, s⟩ else none

/-! ## The duplicate-finding route handler (`GET` in the app route source) -/

/-- A JavaScript `number` as produced by `parseFloat`: `NaN`, signed
infinity, or a finite value (modelled exactly by a rational for decimal
input strings). -/
inductive JSNumber where
  | nan
  | posInf
  | negInf
  | val (q : ℚ)
deriving DecidableEq, Repr

/-- Numeric value of a digit run, most significant first. -/
def digitsVal (ds : List Char) : Nat :=
  ds.foldl (fun a c => a * 10 + (c.toNat - '0'.toNat)) 0

/-- JS `parseFloat`: skip leading whitespace, optional sign, then the longest
prefix that is `Infinity` or a decimal literal (integer digits, optional
fraction, optional exponent); `NaN` when no digits are found.  Trailing
garbage after a valid prefix is ignored, as is a malformed exponent. -/
def jsParseFloat (s : String) : JSNumber :=
  let cs := s.toList.dropWhile Char.isWhitespace
  let signed : Bool × List Char :=
    match cs with
    | '+' :: r => (false, r)
    | '-' :: r => (true, r)
    | r => (false, r)
  let neg := signed.1
  let cs1 := signed.2
  if cs1.take 8 = "Infinity".toList then
    if neg then .negInf else .posInf
  else
    let intDs := cs1.takeWhile Char.isDigit
    let r1 := cs1.dropWhile Char.isDigit
    let fracPart : List Char × List Char :=
      match r1 with
      | '.' :: r => (r.takeWhile Char.isDigit, r.dropWhile Char.isDigit)
      | r => ([], r)
    let fracDs := fracPart.1
    let r2 := fracPart.2
    if intDs = [] ∧ fracDs = [] then .nan
    else
      -- mantissa = intDs.fracDs, i.e. num / 10^|fracDs|; the exponent scales
      -- by a further power of ten (`mkRat` keeps the value kernel-computable)
      let num : Nat := digitsVal intDs * 10 ^ fracDs.length + digitsVal fracDs
      let exp : Int :=
        match r2 with
        | c :: r3 =>
          if c = 'e' ∨ c = 'E' then
            let esigned : Bool × List Char :=
              match r3 with
              | '+' :: rr => (false, rr)
              | '-' :: rr => (true, rr)
              | rr => (false, rr)
            let eDs := esigned.2.takeWhile Char.isDigit
            if eDs = [] then 0
            else if esigned.1 then -(digitsVal eDs : Int) else (digitsVal eDs : Int)
          else 0
        | [] => 0
      let m : ℚ :=
        if 0 ≤ exp then mkRat (num * 10 ^ exp.toNat) (10 ^ fracDs.length)
        else mkRat num (10 ^ fracDs.length * 10 ^ (-exp).toNat)
      .val (if neg then -m else m)

/-- The `duplicates` payload of `FindDuplicatesResponse`, one constructor per
entity kind. -/
inductive FindDuplicatesPayload where
  | venuesPairs (pairs : List (DuplicatePair Venue))
  | eventsPairs (pairs : List (DuplicatePair Event))
  | vendorsPairs (pairs : List (DuplicatePair Vendor))
  | promotersPairs (pairs : List (DuplicatePair Promoter))
deriving DecidableEq

/-- `FindDuplicatesResponse` (`matchedFields` is the constant `["name"]` in
the source and is elided). -/
structure FindDuplicatesResponse where
  type : DuplicateEntityType
  threshold : ℚ
  duplicates : FindDuplicatesPayload
  totalEntities : Nat
deriving DecidableEq

/-- Outcome of the duplicate-finding `GET` handler: 401, the two 400
validation errors, or the 200 payload. -/
inductive GETResult where
  | unauthorized
  | invalidType
  | invalidThreshold
  | ok (r : FindDuplicatesResponse)
deriving DecidableEq

/-- `parseType`: the `type` query parameter checked against the closed set,
`none` for a missing, empty or unknown value (the source's
`!type || !["venues","events","vendors","promoters"].includes(type)`). -/
def parseType : Option String → Option DuplicateEntityType
  | some "venues" => some .venues
  | some "events" => some .events
  | some "vendors" => some .vendors
  | some "promoters" => some .promoters
  | _ => none

/-- Stable insertion of `a` into a list already ordered by `key`. -/
def insertByKey (key : α → String) (a : α) : List α → List α
  | [] => [a]
  | b :: t => if key a ≤ key b then a :: b :: t else b :: insertByKey key a t

/-- `orderBy: { name: "asc" }` on the loaded collections: a stable ascending
sort by the given string key. -/
def sortByKey (key : α → String) : List α → List α
  | [] => []
  | a :: t => insertByKey key a (sortByKey key t)

/-- The duplicate-finding `GET` handler: admin check; `threshold` defaulted
through JS `||` (so a `null` **or empty** raw value becomes `"0.7"`) and
parsed by `parseFloat`; `type` validated against the closed set (before the
threshold check, as in the source); `isNaN(threshold) || threshold < 0 ||
threshold > 1` rejected with 400; then the chosen collection is loaded
ordered by name and scored by `findDuplicatePairs`. -/
def findDuplicatesGET (isAdmin : Bool) (typeParam thresholdParam : Option String)
    (db : DB) : GETResult :=
  if !isAdmin then .unauthorized
  else
    let rawThreshold : String :=
      match thresholdParam with
      | none => "0.7"
      | some s => if s = "" then "0.7" else s
    let threshold := jsParseFloat rawThreshold
    match parseType typeParam with
    | none => .invalidType
    | some ty =>
      -- `isNaN || < 0 || > 1`: `NaN` fails `isNaN`, `Infinity > 1`,
      -- `-Infinity < 0`, a finite value is range-checked.
      match threshold with
      | .nan => .invalidThreshold
      | .posInf => .invalidThreshold
      | .negInf => .invalidThreshold
      | .val t =>
        if t < 0 ∨ t > 1 then .invalidThreshold
        else
          match ty with
          | .venues =>
            let venues := sortByKey Venue.name db.venues
            .ok ⟨ty, t,
              .venuesPairs (findDuplicatePairs venues getVenueComparisonString t),
              venues.length⟩
          | .events =>
            let events := sortByKey Event.name db.events
            .ok ⟨ty, t,
              .eventsPairs (findDuplicatePairs events (getEventComparisonString db) t),
              events.length⟩
          | .vendors =>
            let vendors := sortByKey Vendor.businessName db.vendors
            .ok ⟨ty, t,
              .vendorsPairs (findDuplicatePairs vendors getVendorComparisonString t),
              vendors.length⟩
          | .promoters =>
            let promoters := sortByKey Promoter.companyName db.promoters
            .ok ⟨ty, t,
              .promotersPairs (findDuplicatePairs promoters getPromoterComparisonString t),
              promoters.length⟩

/-! ## Spec-side vocabulary used by the claim statements -/

/-- The favoritable tag corresponding to a mergeable entity kind. -/
def favTypeOf : DuplicateEntityType → FavType
  | .venues => .venue
  | .events => .event
  | .vendors => .vendor
  | .promoters => .promoter

/-- An id resolves to an existing record of the given kind. -/
def resolves (type : DuplicateEntityType) (i : Nat) (db : DB) : Prop :=
  match type with
  | .venues => ∃ v ∈ db.venues, v.id = i
  | .events => ∃ e ∈ db.events, e.id = i
  | .vendors => ∃ v ∈ db.vendors, v.id = i
  | .promoters => ∃ p ∈ db.promoters, p.id = i

instance (type : DuplicateEntityType) (i : Nat) (db : DB) :
    Decidable (resolves type i db) := by
  unfold resolves; cases type <;> infer_instance

/-- Total record count of a kind. -/
def kindCount (type : DuplicateEntityType) (db : DB) : Nat :=
  match type with
  | .venues => db.venues.length
  | .events => db.events.length
  | .vendors => db.vendors.length
  | .promoters => db.promoters.length

/-- The count the spec's §4.4 sentence describes for the preview: Favorite
rows on the duplicate whose `(userId, kind)` is not already favorited on the
primary.  Stated from the spec's words, to be compared with what the preview
functions actually compute. -/
def specTransferableFavorites (k : FavType) (primaryId duplicateId : Nat)
    (db : DB) : Nat :=
  matchCount
    (fun f => f.favoritableType = k ∧ f.favoritableId = duplicateId ∧
      ¬ ∃ g ∈ db.userFavorites,
        g.favoritableType = k ∧ g.favoritableId = primaryId ∧ g.userId = f.userId)
    db.userFavorites

/-- The spec's §4.4 overlap count for a vendor merge: duplicate join rows
whose event links both vendors. -/
def specVendorOverlapCount (primaryId duplicateId : Nat) (db : DB) : Nat :=
  matchCount
    (fun r => r.vendorId = duplicateId ∧
      ∃ q ∈ db.eventVendors, q.vendorId = primaryId ∧ q.eventId = r.eventId)
    db.eventVendors

/-- The spec's §4.4 overlap count for an event merge: duplicate join rows
whose vendor participates in both events. -/
def specEventOverlapCount (primaryId duplicateId : Nat) (db : DB) : Nat :=
  matchCount
    (fun r => r.eventId = duplicateId ∧
      ∃ q ∈ db.eventVendors, q.eventId = primaryId ∧ q.vendorId = r.vendorId)
    db.eventVendors

/-- An empty store, used by concrete instantiations. -/
def emptyDB : DB := ⟨[], [], [], [], [], []⟩

/-- A small concrete store exercising every table, used by concrete
instantiations: two similar venues, two events at those venues, two vendors
(one shared event), two promoters, and favorites with one collision between
venue 1 and venue 2 (user 100 favorites both). -/
def sampleDB : DB :=
  { venues :=
      [⟨1, "Main Hall", "1 A St", "Springfield", "IL"⟩,
       ⟨2, "Main Hall", "1 A Street", "Springfield", "IL"⟩],
    events :=
      [⟨10, "Fair", "d", 1, 20, 5⟩, ⟨11, "Fair", "d", 2, 20, 7⟩],
    vendors :=
      [⟨30, 100, "Tasty", "food"⟩, ⟨31, 101, "Tasty Co", "food"⟩],
    promoters :=
      [⟨20, 100, "Acme"⟩, ⟨21, 102, "Acme Inc"⟩],
    eventVendors :=
      [⟨40, 10, 30⟩, ⟨41, 10, 31⟩, ⟨42, 11, 31⟩],
    userFavorites :=
      [⟨50, 100, .venue, 1⟩, ⟨51, 100, .venue, 2⟩, ⟨52, 101, .venue, 2⟩,
       ⟨53, 100, .event, 10⟩] }

/-- No foreign-key dependent of the given kind references id `i`: no event's
`venueId`/`promoterId`, no join row's `vendorId`/`eventId`. -/
def noDependentsOn (type : DuplicateEntityType) (i : Nat) (db : DB) : Prop :=
  match type with
  | .venues => ∀ e ∈ db.events, e.venueId ≠ i
  | .promoters => ∀ e ∈ db.events, e.promoterId ≠ i
  | .vendors => ∀ x ∈ db.eventVendors, x.vendorId ≠ i
  | .events => ∀ x ∈ db.eventVendors, x.eventId ≠ i

/-- The handler's threshold rejection test,
`isNaN(threshold) || threshold < 0 || threshold > 1` (`NaN` fails `isNaN`,
`Infinity > 1`, `-Infinity < 0`, a finite value is range-checked). -/
def rejectsThreshold : JSNumber → Prop
  | .nan => True
  | .posInf => True
  | .negInf => True
  | .val t => t < 0 ∨ t > 1

instance (n : JSNumber) : Decidable (rejectsThreshold n) := by
  unfold rejectsThreshold; cases n <;> infer_instance

/-- The value `getVendorMergePreview 30 31 sampleDB` returns: one shared
event (10), different owning users, one overlapping join row. -/
def vendorPreviewSample : MergePreviewResponse :=
  { relationshipsToTransfer := { eventVendors := some 1, favorites := 0 },
    warnings :=
      ["These vendors are linked to different user accounts. Merging will only transfer event participations and favorites, not the user account.",
       "1 event(s) have both vendors assigned. Duplicate assignments will be removed."],
    canMerge := true }

/-! ## Helper lemmas about the embedded store primitives -/

theorem findUniqueBy_eq_none {key : α → Nat} {i : Nat} {l : List α} :
    findUniqueBy key i l = none ↔ ∀ x ∈ l, key x ≠ i := by
  simp [findUniqueBy, List.find?_eq_none]

theorem findUniqueBy_isSome {key : α → Nat} {i : Nat} {l : List α} :
    (findUniqueBy key i l).isSome ↔ ∃ x ∈ l, key x = i := by
  simp [findUniqueBy, List.find?_isSome]

theorem findUniqueBy_mem {key : α → Nat} {i : Nat} {l : List α} {x : α}
    (h : findUniqueBy key i l = some x) : x ∈ l ∧ key x = i := by
  refine ⟨List.mem_of_find?_eq_some h, ?_⟩
  have := List.find?_some h
  simpa using this

theorem deleteUnique_some {key : α → Nat} {i : Nat} {l l' : List α}
    (h : deleteUnique key i l = some l') :
    l' = l.filter fun x => decide (¬ key x = i) := by
  unfold deleteUnique at h
  cases hf : findUniqueBy key i l with
  | none => rw [hf] at h; exact absurd h (by simp)
  | some x => rw [hf] at h; injection h with h'; exact h'.symm

theorem deleteUnique_eq_none {key : α → Nat} {i : Nat} {l : List α} :
    deleteUnique key i l = none ↔ findUniqueBy key i l = none := by
  unfold deleteUnique
  cases hf : findUniqueBy key i l <;> simp

theorem deleteUnique_isSome {key : α → Nat} {i : Nat} {l : List α} :
    (deleteUnique key i l).isSome ↔ ∃ x ∈ l, key x = i := by
  unfold deleteUnique
  cases hf : findUniqueBy key i l with
  | none =>
    constructor
    · intro h; simp at h
    · rintro ⟨x, hx, hk⟩
      rw [findUniqueBy_eq_none] at hf
      exact absurd hk (hf x hx)
  | some x =>
    simp only [Option.isSome_some, true_iff]
    exact ⟨x, (findUniqueBy_mem hf).1, (findUniqueBy_mem hf).2⟩

/-- Deleting the unique row with a given key shortens the table by exactly
one when primary keys are distinct. -/
theorem length_filter_of_unique {key : α → Nat} {i : Nat} {l : List α}
    (hnd : (l.map key).Nodup) {x : α} (hx : findUniqueBy key i l = some x) :
    (l.filter fun y => decide (¬ key y = i)).length + 1 = l.length := by
  induction l with
  | nil => simp [findUniqueBy] at hx
  | cons a t ih =>
    simp only [List.map_cons, List.nodup_cons] at hnd
    by_cases hk : key a = i
    · have hnone : ∀ y ∈ t, key y ≠ i := by
        intro y hy he
        exact hnd.1 (by rw [hk, ← he]; exact List.mem_map_of_mem key hy)
      have hfix : t.filter (fun y => decide (¬ key y = i)) = t :=
        List.filter_eq_self.mpr fun y hy => by simpa using hnone y hy
      simp only [List.filter_cons, List.length_cons]
      rw [if_neg (by simpa using hk), hfix]
    · have hx' : findUniqueBy key i t = some x := by
        unfold findUniqueBy at hx ⊢
        rwa [List.find?_cons_of_neg] at hx
        simpa using hk
      have := ih hnd.2 hx'
      simp only [List.filter_cons, List.length_cons]
      rw [if_pos (by simpa using hk)]
      simpa using this

deriving instance DecidableEq for Except

/-! ## Claim theorems -/

/-- C9: for every entity kind, `getMergePreview` fails with `NotFound` exactly
when the primary id or the duplicate id does not resolve to an existing record
of that kind.  The previews are read-only by construction (their type returns
no store), so no mutation is attempted in the failing case. -/
theorem getMergePreview_notFound (type : DuplicateEntityType) (pid did : Nat)
    (db : DB) :
    getMergePreview type pid did db = .error .recordNotFound ↔
      ¬ resolves type pid db ∨ ¬ resolves type did db := by
  cases type
  case venues =>
    show getVenueMergePreview pid did db = _ ↔ _
    unfold getVenueMergePreview resolves
    cases hp : findUniqueBy Venue.id pid db.venues with
    | none =>
      simp only [true_iff]
      left
      rw [findUniqueBy_eq_none] at hp
      rintro ⟨x, hx, hk⟩
      exact hp x hx hk
    | some p =>
      cases hd : findUniqueBy Venue.id did db.venues with
      | none =>
        simp only [true_iff]
        right
        rw [findUniqueBy_eq_none] at hd
        rintro ⟨x, hx, hk⟩
        exact hd x hx hk
      | some d =>
        simp only [reduceCtorEq, false_iff, not_or, not_not]
        exact ⟨⟨p, (findUniqueBy_mem hp).1, (findUniqueBy_mem hp).2⟩,
               ⟨d, (findUniqueBy_mem hd).1, (findUniqueBy_mem hd).2⟩⟩
  case events =>
    show getEventMergePreview pid did db = _ ↔ _
    unfold getEventMergePreview resolves
    cases hp : findUniqueBy Event.id pid db.events with
    | none =>
      simp only [true_iff]
      left
      rw [findUniqueBy_eq_none] at hp
      rintro ⟨x, hx, hk⟩
      exact hp x hx hk
    | some p =>
      cases hd : findUniqueBy Event.id did db.events with
      | none =>
        simp only [true_iff]
        right
        rw [findUniqueBy_eq_none] at hd
        rintro ⟨x, hx, hk⟩
        exact hd x hx hk
      | some d =>
        simp only [reduceCtorEq, false_iff, not_or, not_not]
        exact ⟨⟨p, (findUniqueBy_mem hp).1, (findUniqueBy_mem hp).2⟩,
               ⟨d, (findUniqueBy_mem hd).1, (findUniqueBy_mem hd).2⟩⟩
  case vendors =>
    show getVendorMergePreview pid did db = _ ↔ _
    unfold getVendorMergePreview resolves
    cases hp : findUniqueBy Vendor.id pid db.vendors with
    | none =>
      simp only [true_iff]
      left
      rw [findUniqueBy_eq_none] at hp
      rintro ⟨x, hx, hk⟩
      exact hp x hx hk
    | some p =>
      cases hd : findUniqueBy Vendor.id did db.vendors with
      | none =>
        simp only [true_iff]
        right
        rw [findUniqueBy_eq_none] at hd
        rintro ⟨x, hx, hk⟩
        exact hd x hx hk
      | some d =>
        simp only [reduceCtorEq, false_iff, not_or, not_not]
        exact ⟨⟨p, (findUniqueBy_mem hp).1, (findUniqueBy_mem hp).2⟩,
               ⟨d, (findUniqueBy_mem hd).1, (findUniqueBy_mem hd).2⟩⟩
  case promoters =>
    show getPromoterMergePreview pid did db = _ ↔ _
    unfold getPromoterMergePreview resolves
    cases hp : findUniqueBy Promoter.id pid db.promoters with
    | none =>
      simp only [true_iff]
      left
      rw [findUniqueBy_eq_none] at hp
      rintro ⟨x, hx, hk⟩
      exact hp x hx hk
    | some p =>
      cases hd : findUniqueBy Promoter.id did db.promoters with
      | none =>
        simp only [true_iff]
        right
        rw [findUniqueBy_eq_none] at hd
        rintro ⟨x, hx, hk⟩
        exact hd x hx hk
      | some d =>
        simp only [reduceCtorEq, false_iff, not_or, not_not]
        exact ⟨⟨p, (findUniqueBy_mem hp).1, (findUniqueBy_mem hp).2⟩,
               ⟨d, (findUniqueBy_mem hd).1, (findUniqueBy_mem hd).2⟩⟩

/-- C9 witness: on the empty store, id 1 does not resolve as a venue, so the
venue merge preview of (1, 2) fails with `NotFound`. -/
theorem getMergePreview_notFound_witness :
    getMergePreview .venues 1 2 emptyDB = .error .recordNotFound :=
  (getMergePreview_notFound .venues 1 2 emptyDB).mpr (Or.inl (by decide))

/-- C3 counterexample: in `sampleDB`, user 100 favorites both venue 1 and
venue 2, so only one of duplicate venue 2's two favorites is transferable in
the sense of the claim — but the preview reports `favorites = 2`: the preview
counts **all** of the duplicate's favorites, without excluding collisions. -/
theorem mergePreview_favorites_counterexample :
    getVenueMergePreview 1 2 sampleDB =
      .ok { relationshipsToTransfer := { events := some 1, favorites := 2 },
            warnings := [], canMerge := true } ∧
    specTransferableFavorites FavType.venue 1 2 sampleDB = 1 := by
  decide

/-- C3 (amended): for every entity kind, the preview's
`relationshipsToTransfer.favorites` is the **total** number of Favorite rows
on the duplicate for that kind, including favorites whose user already
favorited the primary (the executor, not the preview, excludes those). -/
theorem mergePreview_favorites_amended (type : DuplicateEntityType)
    (pid did : Nat) (db : DB) (pre : MergePreviewResponse)
    (h : getMergePreview type pid did db = .ok pre) :
    pre.relationshipsToTransfer.favorites =
      matchCount
        (fun f => f.favoritableType = favTypeOf type ∧ f.favoritableId = did)
        db.userFavorites := by
  cases type
  case venues =>
    unfold getMergePreview getVenueMergePreview at h
    cases hp : findUniqueBy Venue.id pid db.venues with
    | none => rw [hp] at h; exact absurd h (by simp)
    | some p =>
      cases hd : findUniqueBy Venue.id did db.venues with
      | none => rw [hp, hd] at h; exact absurd h (by simp)
      | some d =>
        rw [hp, hd] at h
        injection h with h'
        rw [← h']
        rfl
  case events =>
    unfold getMergePreview getEventMergePreview at h
    cases hp : findUniqueBy Event.id pid db.events with
    | none => rw [hp] at h; exact absurd h (by simp)
    | some p =>
      cases hd : findUniqueBy Event.id did db.events with
      | none => rw [hp, hd] at h; exact absurd h (by simp)
      | some d =>
        rw [hp, hd] at h
        injection h with h'
        rw [← h']
        rfl
  case vendors =>
    unfold getMergePreview getVendorMergePreview at h
    cases hp : findUniqueBy Vendor.id pid db.vendors with
    | none => rw [hp] at h; exact absurd h (by simp)
    | some p =>
      cases hd : findUniqueBy Vendor.id did db.vendors with
      | none => rw [hp, hd] at h; exact absurd h (by simp)
      | some d =>
        rw [hp, hd] at h
        injection h with h'
        rw [← h']
        rfl
  case promoters =>
    unfold getMergePreview getPromoterMergePreview at h
    cases hp : findUniqueBy Promoter.id pid db.promoters with
    | none => rw [hp] at h; exact absurd h (by simp)
    | some p =>
      cases hd : findUniqueBy Promoter.id did db.promoters with
      | none => rw [hp, hd] at h; exact absurd h (by simp)
      | some d =>
        rw [hp, hd] at h
        injection h with h'
        rw [← h']
        rfl

/-- C3 amended witness: the venue preview of (1, 2) in `sampleDB` reports
exactly the duplicate's total favorite count, here 2. -/
theorem mergePreview_favorites_amended_witness :
    ({ relationshipsToTransfer := { events := some 1, favorites := 2 },
       warnings := [], canMerge := true } :
        MergePreviewResponse).relationshipsToTransfer.favorites =
      matchCount
        (fun f => f.favoritableType = favTypeOf .venues ∧ f.favoritableId = 2)
        sampleDB.userFavorites :=
  mergePreview_favorites_amended .venues 1 2 sampleDB _ (by decide)

/-- The overlap list of a vendor merge counts exactly the spec's §4.4
conflicts: duplicate join rows whose event links both vendors. -/
theorem vendorOverlap_length (pid did : Nat) (db : DB) :
    (vendorOverlap pid did db).length = specVendorOverlapCount pid did db := by
  unfold vendorOverlap specVendorOverlapCount matchCount
  rw [List.filter_filter]
  congr 1
  apply List.filter_congr
  intro r _
  rw [← Bool.decide_and]
  apply decide_eq_decide.mpr
  constructor
  · rintro ⟨hmem, hv⟩
    refine ⟨hv, ?_⟩
    simp only [List.mem_map, List.mem_filter, decide_eq_true_eq] at hmem
    obtain ⟨q, ⟨hq, hqv⟩, hqe⟩ := hmem
    exact ⟨q, hq, hqv, hqe⟩
  · rintro ⟨hv, q, hq, hqv, hqe⟩
    refine ⟨?_, hv⟩
    simp only [List.mem_map, List.mem_filter, decide_eq_true_eq]
    exact ⟨q, ⟨hq, hqv⟩, hqe⟩

/-- The overlap list of an event merge counts exactly the spec's §4.4
conflicts: duplicate join rows whose vendor participates in both events. -/
theorem eventOverlap_length (pid did : Nat) (db : DB) :
    (eventOverlap pid did db).length = specEventOverlapCount pid did db := by
  unfold eventOverlap specEventOverlapCount matchCount
  rw [List.filter_filter]
  congr 1
  apply List.filter_congr
  intro r _
  rw [← Bool.decide_and]
  apply decide_eq_decide.mpr
  constructor
  · rintro ⟨hmem, hv⟩
    refine ⟨hv, ?_⟩
    simp only [List.mem_map, List.mem_filter, decide_eq_true_eq] at hmem
    obtain ⟨q, ⟨hq, hqv⟩, hqe⟩ := hmem
    exact ⟨q, hq, hqv, hqe⟩
  · rintro ⟨hv, q, hq, hqv, hqe⟩
    refine ⟨?_, hv⟩
    simp only [List.mem_map, List.mem_filter, decide_eq_true_eq]
    exact ⟨q, ⟨hq, hqv⟩, hqe⟩

/-- C5: for vendor and event merge previews on resolvable ids,
`relationshipsToTransfer.eventVendors` is the duplicate's join-row count
minus the overlap count (rows whose counterpart is linked to both records);
a positive overlap adds the overlap warning to the warnings list, and
`canMerge` stays `true`. -/
theorem mergePreview_overlap (pid did : Nat) (db : DB) :
    (∀ pre, getVendorMergePreview pid did db = .ok pre →
      pre.relationshipsToTransfer.eventVendors =
        some (matchCount (fun r => r.vendorId = did) db.eventVendors -
          specVendorOverlapCount pid did db) ∧
      (0 < specVendorOverlapCount pid did db →
        (toString (specVendorOverlapCount pid did db) ++
          " event(s) have both vendors assigned. Duplicate assignments will be removed.")
          ∈ pre.warnings) ∧
      pre.canMerge = true) ∧
    (∀ pre, getEventMergePreview pid did db = .ok pre →
      pre.relationshipsToTransfer.eventVendors =
        some (matchCount (fun r => r.eventId = did) db.eventVendors -
          specEventOverlapCount pid did db) ∧
      (0 < specEventOverlapCount pid did db →
        (toString (specEventOverlapCount pid did db) ++
          " vendor(s) are assigned to both events. Duplicate assignments will be removed.")
          ∈ pre.warnings) ∧
      pre.canMerge = true) := by
  constructor
  · intro pre h
    unfold getVendorMergePreview at h
    cases hp : findUniqueBy Vendor.id pid db.vendors with
    | none => rw [hp] at h; exact absurd h (by simp)
    | some p =>
      cases hd : findUniqueBy Vendor.id did db.vendors with
      | none => rw [hp, hd] at h; exact absurd h (by simp)
      | some d =>
        rw [hp, hd] at h
        injection h with h'
        subst h'
        refine ⟨by rw [vendorOverlap_length], ?_, rfl⟩
        intro hpos
        rw [← vendorOverlap_length] at hpos
        simp only [← vendorOverlap_length]
        rw [if_pos hpos]
        exact List.mem_append_right _ (List.mem_singleton.mpr rfl)
  · intro pre h
    unfold getEventMergePreview at h
    cases hp : findUniqueBy Event.id pid db.events with
    | none => rw [hp] at h; exact absurd h (by simp)
    | some p =>
      cases hd : findUniqueBy Event.id did db.events with
      | none => rw [hp, hd] at h; exact absurd h (by simp)
      | some d =>
        rw [hp, hd] at h
        injection h with h'
        subst h'
        refine ⟨by rw [eventOverlap_length], ?_, rfl⟩
        intro hpos
        rw [← eventOverlap_length] at hpos
        simp only [← eventOverlap_length]
        rw [if_pos hpos]
        exact List.mem_append_right _ (List.mem_singleton.mpr rfl)

/-- C5 witness: in `sampleDB`, merging vendor 31 into vendor 30 previews
`eventVendors = 2 - 1`, carries the overlap warning, and keeps
`canMerge = true`. -/
theorem mergePreview_overlap_witness :
    vendorPreviewSample.relationshipsToTransfer.eventVendors =
      some (matchCount (fun r => r.vendorId = 31) sampleDB.eventVendors -
        specVendorOverlapCount 30 31 sampleDB) ∧
    (toString (specVendorOverlapCount 30 31 sampleDB) ++
      " event(s) have both vendors assigned. Duplicate assignments will be removed.")
      ∈ vendorPreviewSample.warnings ∧
    vendorPreviewSample.canMerge = true := by
  have h := (mergePreview_overlap 30 31 sampleDB).1 vendorPreviewSample (by decide)
  exact ⟨h.1, h.2.1 (by decide), h.2.2⟩

/-- `find?` of the primary key through the view-count update (which preserves
keys) and the deletion of the distinct duplicate key: the primary's row is
found, updated. -/
theorem findUniqueBy_update_filter (key : α → Nat) (g : α → α)
    (hg : ∀ x, key (g x) = key x) (pid did : Nat) (hne : pid ≠ did) (l : List α) :
    findUniqueBy key pid
      ((applyUpdate (fun x => key x = pid) g l).filter fun x => decide (¬ key x = did))
      = (findUniqueBy key pid l).map g := by
  induction l with
  | nil => rfl
  | cons a t ih =>
    unfold applyUpdate findUniqueBy at ih ⊢
    simp only [List.map_cons]
    by_cases hk : key a = pid
    · have h1 : (if key a = pid then g a else a) = g a := if_pos hk
      rw [h1]
      rw [List.filter_cons_of_pos (by simp [hg, hk]; exact hne)]
      rw [List.find?_cons_of_pos _ (by simp [hg, hk])]
      rw [List.find?_cons_of_pos _ (by simp [hk])]
      rfl
    · have h1 : (if key a = pid then g a else a) = a := if_neg hk
      rw [h1]
      by_cases hk2 : key a = did
      · rw [List.filter_cons_of_neg (by simp [hk2])]
        rw [ih]
        rw [List.find?_cons_of_neg _ (by simp [hk])]
      · rw [List.filter_cons_of_pos (by simp [hk2])]
        rw [List.find?_cons_of_neg _ (by simp [hk])]
        rw [List.find?_cons_of_neg _ (by simp [hk])]
        exact ih

/-- C6: for an event merge on resolvable ids that completes successfully, the
primary event's view counter afterwards is the sum of the primary's and
duplicate's view counters beforehand. -/
theorem mergeEvents_viewCount (pid did : Nat) (db db' : DB) (r : MergeResponse)
    (pOld dOld p' : Event)
    (hp : findUniqueBy Event.id pid db.events = some pOld)
    (hd : findUniqueBy Event.id did db.events = some dOld)
    (hm : executeMergeTx .events pid did db = .ok (db', r))
    (hp' : findUniqueBy Event.id pid db'.events = some p') :
    p'.viewCount = pOld.viewCount + dOld.viewCount := by
  have hm2 : mergeEventsTx pid did db = .ok (db', r) := hm
  unfold mergeEventsTx at hm2
  rw [hd, hp] at hm2
  simp only [] at hm2
  unfold mergeEventsFinish at hm2
  cases hdel : deleteUnique Event.id did
      (applyUpdate (fun e => e.id = pid)
        (fun e => { e with viewCount := e.viewCount + dOld.viewCount }) db.events) with
  | none => rw [hdel] at hm2; exact absurd hm2 (by simp)
  | some events2 =>
    rw [hdel] at hm2
    injection hm2 with hm1
    injection hm1 with hA hB
    have hev : db'.events = events2 := by rw [← hA]
    have h2 := deleteUnique_some hdel
    by_cases hne : pid = did
    · subst hne
      rw [hev, h2] at hp'
      have hnone : findUniqueBy Event.id pid
          ((applyUpdate (fun e => e.id = pid)
            (fun e => { e with viewCount := e.viewCount + dOld.viewCount }) db.events).filter
            fun x => decide (¬ Event.id x = pid)) = none := by
        rw [findUniqueBy_eq_none]
        intro x hx
        simp only [List.mem_filter, decide_eq_true_eq] at hx
        exact hx.2
      rw [hnone] at hp'
      exact absurd hp' (by simp)
    · rw [hev, h2] at hp'
      rw [findUniqueBy_update_filter Event.id
            (fun e => { e with viewCount := e.viewCount + dOld.viewCount })
            (fun x => rfl) pid did hne] at hp'
      rw [hp] at hp'
      injection hp' with hp'
      rw [← hp']

/-- C6 witness: merging event 11 (7 views) into event 10 (5 views) in
`sampleDB` leaves event 10 with 12 views. -/
theorem mergeEvents_viewCount_witness :
    (⟨10, "Fair", "d", 1, 20, 12⟩ : Event).viewCount =
      (⟨10, "Fair", "d", 1, 20, 5⟩ : Event).viewCount +
      (⟨11, "Fair", "d", 2, 20, 7⟩ : Event).viewCount :=
  mergeEvents_viewCount 10 11 sampleDB
    { sampleDB with
        events := [⟨10, "Fair", "d", 1, 20, 12⟩],
        eventVendors := [⟨40, 10, 30⟩, ⟨41, 10, 31⟩] }
    ⟨true, { eventVendors := some 0, favorites := 0 }, 11⟩
    ⟨10, "Fair", "d", 1, 20, 5⟩ ⟨11, "Fair", "d", 2, 20, 7⟩ ⟨10, "Fair", "d", 1, 20, 12⟩
    (by decide) (by decide) (by decide) (by decide)

/-- C10 counterexample: a threshold parameter that is **present but empty**
parses to `NaN` (so by the claim it should be rejected), yet the handler
substitutes the default before parsing — `parseFloat(get("threshold") ||
"0.7")` — and answers exactly as if the parameter were absent, with
threshold 0.7. -/
theorem findDuplicatesGET_empty_threshold_counterexample :
    jsParseFloat "" = .nan ∧
    findDuplicatesGET true (some "venues") (some "") emptyDB =
      .ok ⟨.venues, mkRat 7 10, .venuesPairs [], 0⟩ ∧
    findDuplicatesGET true (some "venues") (some "") emptyDB ≠ .invalidThreshold := by
  decide

/-- C10 (amended): with a valid type, a missing threshold parameter defaults
to 0.7, and a present **non-empty** threshold parameter that does not parse
to a number in [0, 1] (NaN and the infinities included) is rejected with the
validation error; the rejection is independent of the store, so no entity
data is read. -/
theorem findDuplicatesGET_threshold (ty : Option String) (t0 : DuplicateEntityType)
    (hty : parseType ty = some t0) (db db2 : DB) :
    (∃ resp, findDuplicatesGET true ty none db = .ok resp ∧
      resp.threshold = mkRat 7 10) ∧
    (∀ s, s ≠ "" → rejectsThreshold (jsParseFloat s) →
      findDuplicatesGET true ty (some s) db = .invalidThreshold ∧
      findDuplicatesGET true ty (some s) db = findDuplicatesGET true ty (some s) db2) := by
  have h07 : jsParseFloat "0.7" = .val (mkRat 7 10) := by decide
  constructor
  · unfold findDuplicatesGET
    simp only [Bool.not_true, Bool.false_eq_true, if_false, hty, h07]
    rw [if_neg (by decide)]
    cases t0 <;> exact ⟨_, rfl, rfl⟩
  · intro s hs hrej
    unfold findDuplicatesGET
    simp only [Bool.not_true, Bool.false_eq_true, if_false, hty, if_neg hs]
    cases hn : jsParseFloat s with
    | nan => exact ⟨rfl, rfl⟩
    | posInf => exact ⟨rfl, rfl⟩
    | negInf => exact ⟨rfl, rfl⟩
    | val t =>
      rw [hn] at hrej
      have hrej2 : t < 0 ∨ t > 1 := hrej
      simp only []
      rw [if_pos hrej2, if_pos hrej2]
      exact ⟨rfl, rfl⟩

/-- C10 amended witness: the unparseable threshold "abc" on a valid type is
rejected with the validation error. -/
theorem findDuplicatesGET_threshold_witness :
    findDuplicatesGET true (some "venues") (some "abc") sampleDB = .invalidThreshold :=
  ((findDuplicatesGET_threshold (some "venues") .venues rfl sampleDB emptyDB).2
    "abc" (by decide) (by decide)).1

/-- Membership in the ordered-pair enumeration is exactly "two positions, the
first strictly before the second". -/
theorem mem_allOrderedPairs {l : List α} {a b : α} :
    (a, b) ∈ allOrderedPairs l ↔
      ∃ (i j : Nat), i < j ∧ l[i]? = some a ∧ l[j]? = some b := by
  induction l with
  | nil => simp [allOrderedPairs]
  | cons x xs ih =>
    simp only [allOrderedPairs, List.mem_append, List.mem_map, ih]
    constructor
    · rintro (⟨y, hy, heq⟩ | ⟨i, j, hij, ha, hb⟩)
      · obtain ⟨hxa, hyb⟩ : x = a ∧ y = b := by
          refine ⟨?_, ?_⟩ <;> cases heq <;> rfl
        obtain ⟨k, hk⟩ := List.getElem?_of_mem hy
        refine ⟨0, k + 1, Nat.succ_pos k, by simp [hxa], ?_⟩
        rw [List.getElem?_cons_succ, ← hyb]
        exact hk
      · exact ⟨i + 1, j + 1, by omega, by simpa using ha, by simpa using hb⟩
    · rintro ⟨i, j, hij, ha, hb⟩
      cases i with
      | zero =>
        cases j with
        | zero => omega
        | succ j2 =>
          left
          rw [List.getElem?_cons_succ] at hb
          have hxa : x = a := by
            rw [List.getElem?_cons_zero] at ha
            injection ha
          refine ⟨b, ?_, by rw [hxa]⟩
          exact List.getElem?_mem hb
      | succ i2 =>
        cases j with
        | zero => omega
        | succ j2 =>
          right
          exact ⟨i2, j2, by omega, by simpa using ha, by simpa using hb⟩

/-- C8: a pair is returned by `findDuplicatePairs` **iff** it sits at two
positions `i < j` of the input collection, carries exactly the similarity of
the two comparison strings, and that similarity reaches the threshold.  In
particular no entity is ever paired with itself: the two positions are
distinct. -/
theorem findDuplicatePairs_spec (l : List E) (f : E → String) (t : ℚ)
    (p : DuplicatePair E) :
    p ∈ findDuplicatePairs l f t ↔
      ((∃ (i j : Nat), i < j ∧ l[i]? = some p.entity1 ∧ l[j]? = some p.entity2) ∧
       p.similarity = similarity (f p.entity1) (f p.entity2) ∧
       t ≤ p.similarity) := by
  unfold findDuplicatePairs
  rw [List.mem_filterMap]
  constructor
  · rintro ⟨⟨a, b⟩, hmem, hf⟩
    simp only [] at hf
    by_cases hge : similarity (f a) (f b) ≥ t
    · rw [if_pos hge] at hf
      injection hf with hf
      subst hf
      exact ⟨mem_allOrderedPairs.mp hmem, rfl, hge⟩
    · rw [if_neg hge] at hf
      exact absurd hf (by simp)
  · rintro ⟨hex, hsim, hge⟩
    refine ⟨(p.entity1, p.entity2), mem_allOrderedPairs.mpr hex, ?_⟩
    simp only []
    rw [if_pos (by rw [← hsim]; exact hge)]
    rw [← hsim]

/-- C8 witness: the spec's §8 example — "County Fairgrounds" vs "County Fair
Grounds" has Jaccard similarity 1/4, so the pair is returned at threshold
0.2. -/
theorem findDuplicatePairs_spec_witness :
    (⟨⟨1, "County Fairgrounds", "", "", ""⟩,
      ⟨2, "County Fair Grounds", "", "", ""⟩, mkRat 1 4⟩ : DuplicatePair Venue) ∈
      findDuplicatePairs
        [⟨1, "County Fairgrounds", "", "", ""⟩, ⟨2, "County Fair Grounds", "", "", ""⟩]
        getVenueComparisonString (mkRat 1 5) :=
  (findDuplicatePairs_spec _ getVenueComparisonString (mkRat 1 5) _).mpr
    ⟨⟨0, 1, by decide, by decide, by decide⟩, by decide, by decide⟩

/-- The (eventId, vendorId) keys stay unique through a vendor merge's join-row
overlap deletion and re-point: a moved row cannot collide with a surviving
primary row (its event was excluded by the overlap filter), with another
moved row (duplicate rows had distinct events), or with an unrelated row. -/
theorem evKey_nodup_vendor_merge (pid did : Nat) (l : List EventVendor)
    (h : (l.map evKey).Nodup) :
    (((applyUpdate (fun r => r.vendorId = did) (fun r => { r with vendorId := pid })
        (deleteManyRows
          (fun r => r.vendorId = did ∧
            r.eventId ∈ (l.filter fun r => decide (r.vendorId = pid)).map EventVendor.eventId)
          l)).map evKey)).Nodup := by
  have hpw : l.Pairwise fun a b => evKey a ≠ evKey b := List.pairwise_map.mp h
  unfold applyUpdate deleteManyRows
  rw [List.Nodup, List.pairwise_map, List.pairwise_map]
  refine List.Pairwise.imp_of_mem ?_ (hpw.filter _)
  intro a b hmemA hmemB hne heq
  apply hne
  obtain ⟨haL, hqa⟩ := List.mem_filter.mp hmemA
  obtain ⟨hbL, hqb⟩ := List.mem_filter.mp hmemB
  rw [decide_eq_true_eq] at hqa hqb
  unfold evKey at heq ⊢
  by_cases hA : a.vendorId = did <;> by_cases hB : b.vendorId = did
  · rw [if_pos hA, if_pos hB] at heq
    simp only [Prod.mk.injEq] at heq ⊢
    exact ⟨heq.1, by rw [hA, hB]⟩
  · rw [if_pos hA, if_neg hB] at heq
    simp only [Prod.mk.injEq] at heq
    exfalso
    apply hqa
    refine ⟨hA, ?_⟩
    rw [heq.1]
    exact List.mem_map_of_mem _ (List.mem_filter.mpr ⟨hbL, by simp [← heq.2]⟩)
  · rw [if_neg hA, if_pos hB] at heq
    simp only [Prod.mk.injEq] at heq
    exfalso
    apply hqb
    refine ⟨hB, ?_⟩
    rw [← heq.1]
    exact List.mem_map_of_mem _ (List.mem_filter.mpr ⟨haL, by simp [heq.2]⟩)
  · rw [if_neg hA, if_neg hB] at heq
    exact heq

/-- Mirror of `evKey_nodup_vendor_merge` for an event merge: keys stay unique
through the overlap deletion and re-point of the duplicate event's rows. -/
theorem evKey_nodup_event_merge (pid did : Nat) (l : List EventVendor)
    (h : (l.map evKey).Nodup) :
    (((applyUpdate (fun r => r.eventId = did) (fun r => { r with eventId := pid })
        (deleteManyRows
          (fun r => r.eventId = did ∧
            r.vendorId ∈ (l.filter fun r => decide (r.eventId = pid)).map EventVendor.vendorId)
          l)).map evKey)).Nodup := by
  have hpw : l.Pairwise fun a b => evKey a ≠ evKey b := List.pairwise_map.mp h
  unfold applyUpdate deleteManyRows
  rw [List.Nodup, List.pairwise_map, List.pairwise_map]
  refine List.Pairwise.imp_of_mem ?_ (hpw.filter _)
  intro a b hmemA hmemB hne heq
  apply hne
  obtain ⟨haL, hqa⟩ := List.mem_filter.mp hmemA
  obtain ⟨hbL, hqb⟩ := List.mem_filter.mp hmemB
  rw [decide_eq_true_eq] at hqa hqb
  unfold evKey at heq ⊢
  by_cases hA : a.eventId = did <;> by_cases hB : b.eventId = did
  · rw [if_pos hA, if_pos hB] at heq
    simp only [Prod.mk.injEq] at heq ⊢
    exact ⟨by rw [hA, hB], heq.2⟩
  · rw [if_pos hA, if_neg hB] at heq
    simp only [Prod.mk.injEq] at heq
    exfalso
    apply hqa
    refine ⟨hA, ?_⟩
    rw [heq.2]
    exact List.mem_map_of_mem _ (List.mem_filter.mpr ⟨hbL, by simp [← heq.1]⟩)
  · rw [if_neg hA, if_pos hB] at heq
    simp only [Prod.mk.injEq] at heq
    exfalso
    apply hqb
    refine ⟨hB, ?_⟩
    rw [← heq.2]
    exact List.mem_map_of_mem _ (List.mem_filter.mpr ⟨haL, by simp [heq.1]⟩)
  · rw [if_neg hA, if_neg hB] at heq
    exact heq

/-- C2: starting from a store whose EventParticipation rows are unique on
(eventId, vendorId), any successful vendor merge or event merge leaves them
unique: the executor deletes the duplicate's overlapping join rows before
re-pointing the rest. -/
theorem mergeJoinRows_unique (pid did : Nat) (db : DB)
    (h : (db.eventVendors.map evKey).Nodup) :
    (∀ db2 r, executeMergeTx .vendors pid did db = .ok (db2, r) →
      (db2.eventVendors.map evKey).Nodup) ∧
    (∀ db2 r, executeMergeTx .events pid did db = .ok (db2, r) →
      (db2.eventVendors.map evKey).Nodup) := by
  constructor
  · intro db2 r hm
    have hm2 : mergeVendorsTx pid did db = .ok (db2, r) := hm
    unfold mergeVendorsTx at hm2
    cases hdel : deleteUnique Vendor.id did db.vendors with
    | none => rw [hdel] at hm2; exact absurd hm2 (by simp)
    | some vendors1 =>
      rw [hdel] at hm2
      injection hm2 with hm1
      injection hm1 with hA hB
      have hev : db2.eventVendors = _ := congrArg DB.eventVendors hA.symm
      rw [hev]
      exact evKey_nodup_vendor_merge pid did db.eventVendors h
  · intro db2 r hm
    have hm2 : mergeEventsTx pid did db = .ok (db2, r) := hm
    unfold mergeEventsTx at hm2
    cases hfd : findUniqueBy Event.id did db.events with
    | none =>
      rw [hfd] at hm2
      simp only [] at hm2
      unfold mergeEventsFinish at hm2
      cases hdel : deleteUnique Event.id did db.events with
      | none => rw [hdel] at hm2; exact absurd hm2 (by simp)
      | some events2 =>
        rw [hdel] at hm2
        injection hm2 with hm1
        injection hm1 with hA hB
        have hev : db2.eventVendors = _ := congrArg DB.eventVendors hA.symm
        rw [hev]
        exact evKey_nodup_event_merge pid did db.eventVendors h
    | some dupEv =>
      rw [hfd] at hm2
      cases hfp : findUniqueBy Event.id pid db.events with
      | none => rw [hfp] at hm2; simp only [] at hm2; exact absurd hm2 (by simp)
      | some pEv =>
        rw [hfp] at hm2
        simp only [] at hm2
        unfold mergeEventsFinish at hm2
        cases hdel : deleteUnique Event.id did
            (applyUpdate (fun e => e.id = pid)
              (fun e => { e with viewCount := e.viewCount + dupEv.viewCount }) db.events) with
        | none => rw [hdel] at hm2; exact absurd hm2 (by simp)
        | some events2 =>
          rw [hdel] at hm2
          injection hm2 with hm1
          injection hm1 with hA hB
          have hev : db2.eventVendors = _ := congrArg DB.eventVendors hA.symm
          rw [hev]
          exact evKey_nodup_event_merge pid did db.eventVendors h
/-- C2 witness: merging vendor 31 into vendor 30 in `sampleDB` deletes the
overlapping row for event 10 and re-points the row for event 11; the
resulting keys are unique. -/
theorem mergeJoinRows_unique_witness :
    (({ sampleDB with
        eventVendors := [⟨40, 10, 30⟩, ⟨42, 11, 30⟩],
        vendors := [⟨30, 100, "Tasty", "food"⟩] } : DB).eventVendors.map evKey).Nodup :=
  (mergeJoinRows_unique 30 31 sampleDB (by decide)).1
    _ ⟨true, { eventVendors := some 1, favorites := 0 }, 31⟩ (by decide)

/-- The reported favorite transfer count is the number of rows matching the
transfer filter (the `if length > 0` guard collapses). -/
theorem transferFavorites_snd (k : FavType) (pid did : Nat)
    (favs : List UserFavorite) :
    (transferFavorites k pid did favs).2 =
      matchCount (favTransferPred k pid did favs) favs := by
  unfold transferFavorites matchCount
  simp only []
  by_cases h :
      (favs.filter fun f => decide (favTransferPred k pid did favs f)).length > 0
  · rw [if_pos h]
  · rw [if_neg h]
    omega

/-- Under distinct favorite primary keys, the id-based `updateMany` inside
the favorites block equals the semantic update by the transfer filter, so the
resulting table is: re-point the transferable rows, then delete the
duplicate's remaining rows. -/
theorem transferFavorites_fst (k : FavType) (pid did : Nat)
    (favs : List UserFavorite) (hids : (favs.map UserFavorite.id).Nodup) :
    (transferFavorites k pid did favs).1 =
      deleteManyRows (fun f => f.favoritableType = k ∧ f.favoritableId = did)
        (applyUpdate (favTransferPred k pid did favs)
          (fun f => { f with favoritableId := pid }) favs) := by
  unfold transferFavorites
  simp only []
  by_cases h :
      (favs.filter fun f => decide (favTransferPred k pid did favs f)).length > 0
  · rw [if_pos h]
    have hupd :
        applyUpdate
          (fun f => f.id ∈
            ((favs.filter fun f => decide (favTransferPred k pid did favs f)).map
              UserFavorite.id))
          (fun f => { f with favoritableId := pid }) favs =
        applyUpdate (favTransferPred k pid did favs)
          (fun f => { f with favoritableId := pid }) favs := by
      unfold applyUpdate
      apply List.map_congr_left
      intro f hf
      by_cases hsem : favTransferPred k pid did favs f
      · rw [if_pos hsem, if_pos ?_]
        exact List.mem_map_of_mem _
          (List.mem_filter.mpr ⟨hf, by simpa using hsem⟩)
      · rw [if_neg hsem, if_neg ?_]
        intro hmem
        obtain ⟨g, hg, hgid⟩ := List.mem_map.mp hmem
        obtain ⟨hgF, hgsem⟩ := List.mem_filter.mp hg
        rw [decide_eq_true_eq] at hgsem
        have : g = f := List.inj_on_of_nodup_map hids hgF hf hgid
        exact hsem (this ▸ hgsem)
    rw [hupd]
  · rw [if_neg h]
    have hTnil : (favs.filter fun f => decide (favTransferPred k pid did favs f)) = [] := by
      rw [← List.length_eq_zero]
      omega
    have hupd :
        applyUpdate (favTransferPred k pid did favs)
          (fun f => { f with favoritableId := pid }) favs = favs := by
      unfold applyUpdate
      have hpt : ∀ f ∈ favs,
          (if favTransferPred k pid did favs f then
            { f with favoritableId := pid } else f) = f := by
        intro f hf
        rw [if_neg]
        intro hsem
        have hmem : f ∈ (favs.filter fun f => decide (favTransferPred k pid did favs f)) :=
          List.mem_filter.mpr ⟨hf, by simpa using hsem⟩
        rw [hTnil] at hmem
        simp at hmem
      rw [List.map_congr_left hpt, List.map_id']
    rw [hupd]

/-- Inversion of a successful venue merge: the duplicate existed, events were
re-pointed, favorites transferred, the duplicate venue deleted, and the
response reports the match counts. -/
theorem mergeVenuesTx_ok {pid did : Nat} {db db2 : DB} {r : MergeResponse}
    (hm : mergeVenuesTx pid did db = .ok (db2, r)) :
    (∃ v ∈ db.venues, v.id = did) ∧
    db2 = { db with
      events := applyUpdate (fun e => e.venueId = did)
        (fun e => { e with venueId := pid }) db.events,
      userFavorites := (transferFavorites FavType.venue pid did db.userFavorites).1,
      venues := db.venues.filter fun x => decide (¬ x.id = did) } ∧
    r = { success := true,
          transferredRelationships :=
            { events := some (matchCount (fun e => e.venueId = did) db.events),
              favorites := (transferFavorites FavType.venue pid did db.userFavorites).2 },
          deletedId := did } := by
  unfold mergeVenuesTx at hm
  cases hdel : deleteUnique Venue.id did db.venues with
  | none => rw [hdel] at hm; exact absurd hm (by simp)
  | some venues1 =>
    rw [hdel] at hm
    injection hm with hm1
    injection hm1 with hA hB
    refine ⟨?_, ?_, ?_⟩
    · have hiff : (deleteUnique Venue.id did db.venues).isSome ↔
          ∃ x ∈ db.venues, Venue.id x = did := deleteUnique_isSome
      rw [hdel] at hiff
      exact hiff.mp (by simp)
    · rw [← hA, deleteUnique_some hdel]
    · rw [← hB]

/-- Inversion of a successful promoter merge, mirroring `mergeVenuesTx_ok`
over `promoterId`. -/
theorem mergePromotersTx_ok {pid did : Nat} {db db2 : DB} {r : MergeResponse}
    (hm : mergePromotersTx pid did db = .ok (db2, r)) :
    (∃ v ∈ db.promoters, v.id = did) ∧
    db2 = { db with
      events := applyUpdate (fun e => e.promoterId = did)
        (fun e => { e with promoterId := pid }) db.events,
      userFavorites := (transferFavorites FavType.promoter pid did db.userFavorites).1,
      promoters := db.promoters.filter fun x => decide (¬ x.id = did) } ∧
    r = { success := true,
          transferredRelationships :=
            { events := some (matchCount (fun e => e.promoterId = did) db.events),
              favorites := (transferFavorites FavType.promoter pid did db.userFavorites).2 },
          deletedId := did } := by
  unfold mergePromotersTx at hm
  cases hdel : deleteUnique Promoter.id did db.promoters with
  | none => rw [hdel] at hm; exact absurd hm (by simp)
  | some promoters1 =>
    rw [hdel] at hm
    injection hm with hm1
    injection hm1 with hA hB
    refine ⟨?_, ?_, ?_⟩
    · have hiff : (deleteUnique Promoter.id did db.promoters).isSome ↔
          ∃ x ∈ db.promoters, Promoter.id x = did := deleteUnique_isSome
      rw [hdel] at hiff
      exact hiff.mp (by simp)
    · rw [← hA, deleteUnique_some hdel]
    · rw [← hB]

/-- Inversion of a successful vendor merge: overlap join rows deleted, the
rest re-pointed, favorites transferred, the duplicate vendor deleted. -/
theorem mergeVendorsTx_ok {pid did : Nat} {db db2 : DB} {r : MergeResponse}
    (hm : mergeVendorsTx pid did db = .ok (db2, r)) :
    (∃ v ∈ db.vendors, v.id = did) ∧
    db2 = { db with
      eventVendors := applyUpdate (fun x => x.vendorId = did)
        (fun x => { x with vendorId := pid })
        (deleteManyRows (fun x => x.vendorId = did ∧
          x.eventId ∈ (db.eventVendors.filter fun q =>
            decide (q.vendorId = pid)).map EventVendor.eventId)
          db.eventVendors),
      userFavorites := (transferFavorites FavType.vendor pid did db.userFavorites).1,
      vendors := db.vendors.filter fun x => decide (¬ x.id = did) } ∧
    r = { success := true,
          transferredRelationships :=
            { eventVendors := some (matchCount (fun x => x.vendorId = did)
                (deleteManyRows (fun x => x.vendorId = did ∧
                  x.eventId ∈ (db.eventVendors.filter fun q =>
                    decide (q.vendorId = pid)).map EventVendor.eventId)
                  db.eventVendors)),
              favorites := (transferFavorites FavType.vendor pid did db.userFavorites).2 },
          deletedId := did } := by
  unfold mergeVendorsTx at hm
  cases hdel : deleteUnique Vendor.id did db.vendors with
  | none => rw [hdel] at hm; exact absurd hm (by simp)
  | some vendors1 =>
    rw [hdel] at hm
    injection hm with hm1
    injection hm1 with hA hB
    refine ⟨?_, ?_, ?_⟩
    · have hiff : (deleteUnique Vendor.id did db.vendors).isSome ↔
          ∃ x ∈ db.vendors, Vendor.id x = did := deleteUnique_isSome
      rw [hdel] at hiff
      exact hiff.mp (by simp)
    · rw [← hA, deleteUnique_some hdel]
    · rw [← hB]

/-- Inversion of a successful event merge: both events existed (the final
delete forces the duplicate, the view-count update forces the primary), join
rows reconciled, view counts combined, favorites transferred, the duplicate
event deleted. -/
theorem mergeEventsTx_ok {pid did : Nat} {db db2 : DB} {r : MergeResponse}
    (hm : mergeEventsTx pid did db = .ok (db2, r)) :
    ∃ dupEv pEv,
      findUniqueBy Event.id did db.events = some dupEv ∧
      findUniqueBy Event.id pid db.events = some pEv ∧
      db2 = { db with
        eventVendors := applyUpdate (fun x => x.eventId = did)
          (fun x => { x with eventId := pid })
          (deleteManyRows (fun x => x.eventId = did ∧
            x.vendorId ∈ (db.eventVendors.filter fun q =>
              decide (q.eventId = pid)).map EventVendor.vendorId)
            db.eventVendors),
        events := (applyUpdate (fun e => e.id = pid)
          (fun e => { e with viewCount := e.viewCount + dupEv.viewCount })
          db.events).filter fun x => decide (¬ x.id = did),
        userFavorites := (transferFavorites FavType.event pid did db.userFavorites).1 } ∧
      r = { success := true,
            transferredRelationships :=
              { eventVendors := some (matchCount (fun x => x.eventId = did)
                  (deleteManyRows (fun x => x.eventId = did ∧
                    x.vendorId ∈ (db.eventVendors.filter fun q =>
                      decide (q.eventId = pid)).map EventVendor.vendorId)
                    db.eventVendors)),
                favorites := (transferFavorites FavType.event pid did db.userFavorites).2 },
            deletedId := did } := by
  unfold mergeEventsTx at hm
  cases hfd : findUniqueBy Event.id did db.events with
  | none =>
    rw [hfd] at hm
    simp only [] at hm
    unfold mergeEventsFinish at hm
    rw [deleteUnique_eq_none.mpr hfd] at hm
    exact absurd hm (by simp)
  | some dupEv =>
    rw [hfd] at hm
    cases hfp : findUniqueBy Event.id pid db.events with
    | none => rw [hfp] at hm; simp only [] at hm; exact absurd hm (by simp)
    | some pEv =>
      rw [hfp] at hm
      simp only [] at hm
      unfold mergeEventsFinish at hm
      cases hdel : deleteUnique Event.id did
          (applyUpdate (fun e => e.id = pid)
            (fun e => { e with viewCount := e.viewCount + dupEv.viewCount })
            db.events) with
      | none => rw [hdel] at hm; exact absurd hm (by simp)
      | some events2 =>
        rw [hdel] at hm
        injection hm with hm1
        injection hm1 with hA hB
        refine ⟨dupEv, pEv, rfl, rfl, ?_, ?_⟩
        · rw [← hA, deleteUnique_some hdel]
        · rw [← hB]

/-- Membership in the executor's `existingUserIds` set. -/
theorem mem_existingUserIds {k : FavType} {pid : Nat} {favs : List UserFavorite}
    {u : Nat} :
    u ∈ existingUserIds k pid favs ↔
      ∃ g ∈ favs, g.favoritableType = k ∧ g.favoritableId = pid ∧ g.userId = u := by
  unfold existingUserIds
  simp only [List.mem_map, List.mem_filter, decide_eq_true_eq]
  constructor
  · rintro ⟨g, ⟨hg, ht, hf⟩, hu⟩
    exact ⟨g, hg, ht, hf, hu⟩
  · rintro ⟨g, hg, ht, hf, hu⟩
    exact ⟨g, ⟨hg, ht, hf⟩, hu⟩

/-- The executor's transfer filter counts exactly the spec's transferable
favorites: duplicate's rows whose `(userId, kind)` is not already favorited
on the primary. -/
theorem matchCount_favTransferPred (k : FavType) (pid did : Nat) (db : DB) :
    matchCount (favTransferPred k pid did db.userFavorites) db.userFavorites =
      specTransferableFavorites k pid did db := by
  unfold matchCount specTransferableFavorites
  congr 1
  apply List.filter_congr
  intro f _
  apply decide_eq_decide.mpr
  unfold favTransferPred
  constructor
  · rintro ⟨ht, hf, hu⟩
    refine ⟨ht, hf, ?_⟩
    rintro ⟨g, hg, hgt, hgf, hgu⟩
    exact hu (mem_existingUserIds.mpr ⟨g, hg, hgt, hgf, hgu⟩)
  · rintro ⟨ht, hf, hu⟩
    refine ⟨ht, hf, ?_⟩
    intro hmem
    obtain ⟨g, hg, hgt, hgf, hgu⟩ := mem_existingUserIds.mp hmem
    exact hu ⟨g, hg, hgt, hgf, hgu⟩

/-- The `(userId, kind, favoritableId)` keys stay unique through the
favorites transfer: a re-pointed row cannot collide with a primary row (its
user was excluded), with another re-pointed row (duplicate rows had distinct
users), or with an unrelated row. -/
theorem favKey_nodup_transfer (k : FavType) (pid did : Nat)
    (favs : List UserFavorite) (h : (favs.map favKey).Nodup) :
    ((deleteManyRows (fun f => f.favoritableType = k ∧ f.favoritableId = did)
        (applyUpdate (favTransferPred k pid did favs)
          (fun f => { f with favoritableId := pid }) favs)).map favKey).Nodup := by
  have hpw : favs.Pairwise fun a b => favKey a ≠ favKey b := List.pairwise_map.mp h
  unfold applyUpdate deleteManyRows
  rw [List.Nodup, List.pairwise_map]
  refine List.Pairwise.filter _ ?_
  rw [List.pairwise_map]
  refine List.Pairwise.imp_of_mem ?_ hpw
  intro a b ha hb hne heq
  apply hne
  unfold favKey at heq ⊢
  by_cases hA : favTransferPred k pid did favs a <;>
    by_cases hB : favTransferPred k pid did favs b
  · rw [if_pos hA, if_pos hB] at heq
    simp only [Prod.mk.injEq] at heq ⊢
    exact ⟨heq.1, heq.2.1, by rw [hA.2.1, hB.2.1]⟩
  · rw [if_pos hA, if_neg hB] at heq
    simp only [Prod.mk.injEq] at heq
    exfalso
    apply hA.2.2
    rw [heq.1]
    refine mem_existingUserIds.mpr ⟨b, hb, ?_, by rw [← heq.2.2], rfl⟩
    rw [← heq.2.1]
    exact hA.1
  · rw [if_neg hA, if_pos hB] at heq
    simp only [Prod.mk.injEq] at heq
    exfalso
    apply hB.2.2
    rw [← heq.1]
    refine mem_existingUserIds.mpr ⟨a, ha, ?_, by rw [heq.2.2], rfl⟩
    rw [heq.2.1]
    exact hB.1
  · rw [if_neg hA, if_neg hB] at heq
    exact heq

/-- Nothing matching the deletion filter survives `deleteMany`. -/
theorem not_pred_of_mem_deleteManyRows (p : α → Prop) [DecidablePred p]
    {l : List α} {x : α} (h : x ∈ deleteManyRows p l) : ¬ p x := by
  unfold deleteManyRows at h
  have := (List.mem_filter.mp h).2
  simpa using this

/-- Every transferable row of the duplicate survives the transfer re-pointed
at the primary's id. -/
theorem transferFavorites_repoints (k : FavType) (pid did : Nat)
    (favs : List UserFavorite) :
    ∀ f ∈ favs, favTransferPred k pid did favs f →
      { f with favoritableId := pid } ∈
        deleteManyRows (fun f => f.favoritableType = k ∧ f.favoritableId = did)
          (applyUpdate (favTransferPred k pid did favs)
            (fun f => { f with favoritableId := pid }) favs) := by
  intro f hf hsem
  unfold applyUpdate deleteManyRows
  apply List.mem_filter.mpr
  constructor
  · exact List.mem_map.mpr ⟨f, hf, by rw [if_pos hsem]⟩
  · simp only [decide_eq_true_eq]
    rintro ⟨htype, hfid⟩
    apply hsem.2.2
    exact mem_existingUserIds.mpr ⟨f, hf, hsem.1, hsem.2.1.trans hfid.symm, rfl⟩

/-- C4: for every entity kind, a successful merge partitions the duplicate's
favorites: the rows with no collision are re-pointed to the primary and their
number is the reported `transferredRelationships.favorites`; colliding rows
are deleted (no favorite of the merged kind references the duplicate id
afterwards); and the `(userId, kind, favoritableId)` triples remain unique
when they were unique before. -/
theorem mergeFavorites_partition (type : DuplicateEntityType) (pid did : Nat)
    (db db2 : DB) (r : MergeResponse)
    (hids : (db.userFavorites.map UserFavorite.id).Nodup)
    (hkeys : (db.userFavorites.map favKey).Nodup)
    (hm : executeMergeTx type pid did db = .ok (db2, r)) :
    r.transferredRelationships.favorites =
      specTransferableFavorites (favTypeOf type) pid did db ∧
    (db2.userFavorites.map favKey).Nodup ∧
    (∀ f ∈ db2.userFavorites,
      ¬ (f.favoritableType = favTypeOf type ∧ f.favoritableId = did)) ∧
    (∀ f ∈ db.userFavorites,
      favTransferPred (favTypeOf type) pid did db.userFavorites f →
        { f with favoritableId := pid } ∈ db2.userFavorites) := by
  have key : db2.userFavorites =
      (transferFavorites (favTypeOf type) pid did db.userFavorites).1 ∧
      r.transferredRelationships.favorites =
      (transferFavorites (favTypeOf type) pid did db.userFavorites).2 := by
    cases type
    case venues =>
      obtain ⟨_, hdb, hr⟩ := mergeVenuesTx_ok hm
      exact ⟨by rw [hdb]; rfl, by rw [hr]; rfl⟩
    case events =>
      obtain ⟨dupEv, pEv, _, _, hdb, hr⟩ := mergeEventsTx_ok hm
      exact ⟨by rw [hdb]; rfl, by rw [hr]; rfl⟩
    case vendors =>
      obtain ⟨_, hdb, hr⟩ := mergeVendorsTx_ok hm
      exact ⟨by rw [hdb]; rfl, by rw [hr]; rfl⟩
    case promoters =>
      obtain ⟨_, hdb, hr⟩ := mergePromotersTx_ok hm
      exact ⟨by rw [hdb]; rfl, by rw [hr]; rfl⟩
  obtain ⟨hdbf, hrf⟩ := key
  refine ⟨?_, ?_, ?_, ?_⟩
  · rw [hrf, transferFavorites_snd, matchCount_favTransferPred]
  · rw [hdbf, transferFavorites_fst _ _ _ _ hids]
    exact favKey_nodup_transfer _ _ _ _ hkeys
  · intro f hf
    rw [hdbf, transferFavorites_fst _ _ _ _ hids] at hf
    exact not_pred_of_mem_deleteManyRows
      (fun (g : UserFavorite) =>
        g.favoritableType = favTypeOf type ∧ g.favoritableId = did) hf
  · intro f hf hsem
    rw [hdbf, transferFavorites_fst _ _ _ _ hids]
    exact transferFavorites_repoints _ _ _ _ f hf hsem

/-- C4 witness: merging venue 2 into venue 1 in `sampleDB` transfers user
101's favorite, drops user 100's colliding favorite, and keeps the favorite
keys unique. -/
theorem mergeFavorites_partition_witness :
    ((1 : Nat) = specTransferableFavorites (favTypeOf .venues) 1 2 sampleDB) ∧
    ((({ sampleDB with
        events := [⟨10, "Fair", "d", 1, 20, 5⟩, ⟨11, "Fair", "d", 1, 20, 7⟩],
        venues := [⟨1, "Main Hall", "1 A St", "Springfield", "IL"⟩],
        userFavorites := [⟨50, 100, .venue, 1⟩, ⟨52, 101, .venue, 1⟩,
          ⟨53, 100, .event, 10⟩] } : DB).userFavorites.map favKey)).Nodup := by
  have h := mergeFavorites_partition .venues 1 2 sampleDB
    { sampleDB with
        events := [⟨10, "Fair", "d", 1, 20, 5⟩, ⟨11, "Fair", "d", 1, 20, 7⟩],
        venues := [⟨1, "Main Hall", "1 A St", "Springfield", "IL"⟩],
        userFavorites := [⟨50, 100, .venue, 1⟩, ⟨52, 101, .venue, 1⟩,
          ⟨53, 100, .event, 10⟩] }
    ⟨true, { events := some 1, favorites := 1 }, 2⟩
    (by decide) (by decide) (by decide)
  exact ⟨h.1, h.2.1⟩

/-- `updateMany` with a key-preserving update leaves the table's key column
unchanged. -/
theorem map_key_applyUpdate (key : α → β) (p : α → Prop) [DecidablePred p]
    (g : α → α) (hg : ∀ x, key (g x) = key x) (l : List α) :
    (applyUpdate p g l).map key = l.map key := by
  unfold applyUpdate
  rw [List.map_map]
  apply List.map_congr_left
  intro x _
  by_cases hx : p x
  · simp [hx, hg]
  · simp [hx]

/-- Deleting the row with a given key from a table with distinct keys
shortens it by exactly one. -/
theorem count_after_delete {key : α → Nat} {l : List α} {did : Nat}
    (hnd : (l.map key).Nodup) (hex : ∃ x ∈ l, key x = did) :
    (l.filter fun x => decide (¬ key x = did)).length + 1 = l.length := by
  have hsome : (findUniqueBy key did l).isSome := findUniqueBy_isSome.mpr hex
  obtain ⟨x, hx⟩ := Option.isSome_iff_exists.mp hsome
  exact length_filter_of_unique hnd hx

/-- C7: for every entity kind, a successful merge of distinct resolvable ids
deletes exactly the duplicate (the kind's count drops by exactly one), the
primary survives, and no dependent is orphaned: no event, join row or
favorite of that kind references the duplicate id afterwards — every
dependent was re-pointed at the surviving primary first. -/
theorem merge_count_and_no_orphans (type : DuplicateEntityType) (pid did : Nat)
    (db db2 : DB) (r : MergeResponse)
    (hwf : db.WF) (hpid : resolves type pid db) (hne : pid ≠ did)
    (hm : executeMergeTx type pid did db = .ok (db2, r)) :
    kindCount type db2 + 1 = kindCount type db ∧
    resolves type pid db2 ∧
    noDependentsOn type did db2 ∧
    (∀ f ∈ db2.userFavorites,
      ¬ (f.favoritableType = favTypeOf type ∧ f.favoritableId = did)) := by
  cases type
  case venues =>
    obtain ⟨hex, hdb, _⟩ := mergeVenuesTx_ok hm
    obtain ⟨p0, hp0, hp0id⟩ := hpid
    refine ⟨?_, ?_, ?_, ?_⟩
    · show db2.venues.length + 1 = db.venues.length
      rw [hdb]
      exact count_after_delete hwf.1 hex
    · refine ⟨p0, ?_, hp0id⟩
      rw [hdb]
      exact List.mem_filter.mpr ⟨hp0, by simp [hp0id, hne]⟩
    · intro e he
      rw [hdb] at he
      obtain ⟨e0, he0, heq⟩ := List.mem_map.mp he
      by_cases h0 : e0.venueId = did
      · rw [if_pos h0] at heq
        rw [← heq]
        exact fun hc => hne hc
      · rw [if_neg h0] at heq
        rw [← heq]
        exact h0
    · intro f hf
      rw [hdb, transferFavorites_fst _ _ _ _ hwf.2.2.2.2.2] at hf
      exact not_pred_of_mem_deleteManyRows
        (fun (g : UserFavorite) =>
          g.favoritableType = favTypeOf .venues ∧ g.favoritableId = did) hf
  case promoters =>
    obtain ⟨hex, hdb, _⟩ := mergePromotersTx_ok hm
    obtain ⟨p0, hp0, hp0id⟩ := hpid
    refine ⟨?_, ?_, ?_, ?_⟩
    · show db2.promoters.length + 1 = db.promoters.length
      rw [hdb]
      exact count_after_delete hwf.2.2.2.1 hex
    · refine ⟨p0, ?_, hp0id⟩
      rw [hdb]
      exact List.mem_filter.mpr ⟨hp0, by simp [hp0id, hne]⟩
    · intro e he
      rw [hdb] at he
      obtain ⟨e0, he0, heq⟩ := List.mem_map.mp he
      by_cases h0 : e0.promoterId = did
      · rw [if_pos h0] at heq
        rw [← heq]
        exact fun hc => hne hc
      · rw [if_neg h0] at heq
        rw [← heq]
        exact h0
    · intro f hf
      rw [hdb, transferFavorites_fst _ _ _ _ hwf.2.2.2.2.2] at hf
      exact not_pred_of_mem_deleteManyRows
        (fun (g : UserFavorite) =>
          g.favoritableType = favTypeOf .promoters ∧ g.favoritableId = did) hf
  case vendors =>
    obtain ⟨hex, hdb, _⟩ := mergeVendorsTx_ok hm
    obtain ⟨p0, hp0, hp0id⟩ := hpid
    refine ⟨?_, ?_, ?_, ?_⟩
    · show db2.vendors.length + 1 = db.vendors.length
      rw [hdb]
      exact count_after_delete hwf.2.2.1 hex
    · refine ⟨p0, ?_, hp0id⟩
      rw [hdb]
      exact List.mem_filter.mpr ⟨hp0, by simp [hp0id, hne]⟩
    · intro x hx
      rw [hdb] at hx
      obtain ⟨x0, hx0, heq⟩ := List.mem_map.mp hx
      by_cases h0 : x0.vendorId = did
      · rw [if_pos h0] at heq
        rw [← heq]
        exact fun hc => hne hc
      · rw [if_neg h0] at heq
        rw [← heq]
        exact h0
    · intro f hf
      rw [hdb, transferFavorites_fst _ _ _ _ hwf.2.2.2.2.2] at hf
      exact not_pred_of_mem_deleteManyRows
        (fun (g : UserFavorite) =>
          g.favoritableType = favTypeOf .vendors ∧ g.favoritableId = did) hf
  case events =>
    obtain ⟨dupEv, pEv, hfd, hfp, hdb, _⟩ := mergeEventsTx_ok hm
    obtain ⟨p0, hp0, hp0id⟩ := hpid
    have hkeep : ∀ x, Event.id
        ((fun e => { e with viewCount := e.viewCount + dupEv.viewCount }) x) = Event.id x :=
      fun x => rfl
    have hmapid : ((applyUpdate (fun e => e.id = pid)
        (fun e => { e with viewCount := e.viewCount + dupEv.viewCount })
        db.events).map Event.id) = db.events.map Event.id :=
      map_key_applyUpdate Event.id _ _ hkeep db.events
    refine ⟨?_, ?_, ?_, ?_⟩
    · show db2.events.length + 1 = db.events.length
      rw [hdb]
      have hnd2 : ((applyUpdate (fun e => e.id = pid)
          (fun e => { e with viewCount := e.viewCount + dupEv.viewCount })
          db.events).map Event.id).Nodup := by
        rw [hmapid]; exact hwf.2.1
      have hex2 : ∃ x ∈ applyUpdate (fun e => e.id = pid)
          (fun e => { e with viewCount := e.viewCount + dupEv.viewCount })
          db.events, Event.id x = did := by
        obtain ⟨hd0mem, hd0id⟩ := findUniqueBy_mem hfd
        refine ⟨if dupEv.id = pid then
          { dupEv with viewCount := dupEv.viewCount + dupEv.viewCount } else dupEv, ?_, ?_⟩
        · exact List.mem_map.mpr ⟨dupEv, hd0mem, rfl⟩
        · by_cases h0 : dupEv.id = pid
          · rw [if_pos h0]; exact hd0id
          · rw [if_neg h0]; exact hd0id
      have := count_after_delete hnd2 hex2
      rw [this]
      unfold applyUpdate
      rw [List.length_map]
    · refine ⟨if p0.id = pid then
        { p0 with viewCount := p0.viewCount + dupEv.viewCount } else p0, ?_, ?_⟩
      · rw [hdb]
        refine List.mem_filter.mpr ⟨List.mem_map.mpr ⟨p0, hp0, rfl⟩, ?_⟩
        by_cases h0 : p0.id = pid
        · rw [if_pos h0]
          simp [hp0id, hne]
        · rw [if_neg h0]
          simp [hp0id, hne]
      · by_cases h0 : p0.id = pid
        · rw [if_pos h0]; exact hp0id
        · rw [if_neg h0]; exact hp0id
    · intro x hx
      rw [hdb] at hx
      obtain ⟨x0, hx0, heq⟩ := List.mem_map.mp hx
      by_cases h0 : x0.eventId = did
      · rw [if_pos h0] at heq
        rw [← heq]
        exact fun hc => hne hc
      · rw [if_neg h0] at heq
        rw [← heq]
        exact h0
    · intro f hf
      rw [hdb, transferFavorites_fst _ _ _ _ hwf.2.2.2.2.2] at hf
      exact not_pred_of_mem_deleteManyRows
        (fun (g : UserFavorite) =>
          g.favoritableType = favTypeOf .events ∧ g.favoritableId = did) hf

/-- C7 witness: merging venue 2 into venue 1 in `sampleDB` leaves one venue
(one fewer), and venue 1 still resolves. -/
theorem merge_count_and_no_orphans_witness :
    kindCount .venues
      { sampleDB with
        events := [⟨10, "Fair", "d", 1, 20, 5⟩, ⟨11, "Fair", "d", 1, 20, 7⟩],
        venues := [⟨1, "Main Hall", "1 A St", "Springfield", "IL"⟩],
        userFavorites := [⟨50, 100, .venue, 1⟩, ⟨52, 101, .venue, 1⟩,
          ⟨53, 100, .event, 10⟩] } + 1 = kindCount .venues sampleDB ∧
    resolves .venues 1
      { sampleDB with
        events := [⟨10, "Fair", "d", 1, 20, 5⟩, ⟨11, "Fair", "d", 1, 20, 7⟩],
        venues := [⟨1, "Main Hall", "1 A St", "Springfield", "IL"⟩],
        userFavorites := [⟨50, 100, .venue, 1⟩, ⟨52, 101, .venue, 1⟩,
          ⟨53, 100, .event, 10⟩] } := by
  have h := merge_count_and_no_orphans .venues 1 2 sampleDB
    { sampleDB with
        events := [⟨10, "Fair", "d", 1, 20, 5⟩, ⟨11, "Fair", "d", 1, 20, 7⟩],
        venues := [⟨1, "Main Hall", "1 A St", "Springfield", "IL"⟩],
        userFavorites := [⟨50, 100, .venue, 1⟩, ⟨52, 101, .venue, 1⟩,
          ⟨53, 100, .event, 10⟩] }
    ⟨true, { events := some 1, favorites := 1 }, 2⟩
    (by decide) (by decide) (by decide) (by decide)
  exact ⟨h.1, h.2.1⟩

/-- A venue merge whose duplicate id matches no venue aborts: the final
`delete` raises and the transaction fails. -/
theorem mergeVenuesTx_notFound (pid did : Nat) (db : DB)
    (h : ∀ v ∈ db.venues, v.id ≠ did) :
    mergeVenuesTx pid did db = .error .recordNotFound := by
  unfold mergeVenuesTx
  rw [deleteUnique_eq_none.mpr (findUniqueBy_eq_none.mpr h)]

/-- A promoter merge whose duplicate id matches no promoter aborts. -/
theorem mergePromotersTx_notFound (pid did : Nat) (db : DB)
    (h : ∀ v ∈ db.promoters, v.id ≠ did) :
    mergePromotersTx pid did db = .error .recordNotFound := by
  unfold mergePromotersTx
  rw [deleteUnique_eq_none.mpr (findUniqueBy_eq_none.mpr h)]

/-- A vendor merge whose duplicate id matches no vendor aborts. -/
theorem mergeVendorsTx_notFound (pid did : Nat) (db : DB)
    (h : ∀ v ∈ db.vendors, v.id ≠ did) :
    mergeVendorsTx pid did db = .error .recordNotFound := by
  unfold mergeVendorsTx
  rw [deleteUnique_eq_none.mpr (findUniqueBy_eq_none.mpr h)]

/-- An event merge whose duplicate id matches no event aborts: the view-count
step is skipped and the final `delete` raises. -/
theorem mergeEventsTx_notFound (pid did : Nat) (db : DB)
    (h : ∀ e ∈ db.events, e.id ≠ did) :
    mergeEventsTx pid did db = .error .recordNotFound := by
  unfold mergeEventsTx
  rw [findUniqueBy_eq_none.mpr h]
  simp only []
  unfold mergeEventsFinish
  rw [deleteUnique_eq_none.mpr (findUniqueBy_eq_none.mpr h)]

/-- C1: all mutation steps run inside one transaction — when any step fails
the caller observes the original store, so the duplicate still exists
unmodified and the primary is untouched; and a merge succeeds at most once
per pair: after success the duplicate id no longer resolves, so re-running
the same merge aborts with the record-not-found failure. -/
theorem merge_atomic_and_at_most_once (type : DuplicateEntityType)
    (pid did : Nat) (db : DB) :
    (∀ e, executeMergeTx type pid did db = .error e →
      runExecuteMerge type pid did db = (db, .error e)) ∧
    (∀ db2 r, executeMergeTx type pid did db = .ok (db2, r) →
      ¬ resolves type did db2 ∧
      executeMergeTx type pid did db2 = .error .recordNotFound) := by
  constructor
  · intro e he
    unfold runExecuteMerge
    rw [he]
  · intro db2 r hm
    cases type
    case venues =>
      obtain ⟨_, hdb, _⟩ := mergeVenuesTx_ok hm
      have hno : ∀ v ∈ db2.venues, v.id ≠ did := by
        intro v hv
        rw [hdb] at hv
        have := (List.mem_filter.mp hv).2
        simpa using this
      constructor
      · rintro ⟨v, hv, hvid⟩
        exact hno v hv hvid
      · exact mergeVenuesTx_notFound pid did db2 hno
    case promoters =>
      obtain ⟨_, hdb, _⟩ := mergePromotersTx_ok hm
      have hno : ∀ v ∈ db2.promoters, v.id ≠ did := by
        intro v hv
        rw [hdb] at hv
        have := (List.mem_filter.mp hv).2
        simpa using this
      constructor
      · rintro ⟨v, hv, hvid⟩
        exact hno v hv hvid
      · exact mergePromotersTx_notFound pid did db2 hno
    case vendors =>
      obtain ⟨_, hdb, _⟩ := mergeVendorsTx_ok hm
      have hno : ∀ v ∈ db2.vendors, v.id ≠ did := by
        intro v hv
        rw [hdb] at hv
        have := (List.mem_filter.mp hv).2
        simpa using this
      constructor
      · rintro ⟨v, hv, hvid⟩
        exact hno v hv hvid
      · exact mergeVendorsTx_notFound pid did db2 hno
    case events =>
      obtain ⟨dupEv, pEv, _, _, hdb, _⟩ := mergeEventsTx_ok hm
      have hno : ∀ e ∈ db2.events, e.id ≠ did := by
        intro e he
        rw [hdb] at he
        have := (List.mem_filter.mp he).2
        simpa using this
      constructor
      · rintro ⟨e, he, heid⟩
        exact hno e he heid
      · exact mergeEventsTx_notFound pid did db2 hno

/-- C1 witness: after the successful venue merge (1, 2) on `sampleDB`,
retrying the same merge fails. -/
theorem merge_atomic_and_at_most_once_witness :
    executeMergeTx .venues 1 2
      { sampleDB with
        events := [⟨10, "Fair", "d", 1, 20, 5⟩, ⟨11, "Fair", "d", 1, 20, 7⟩],
        venues := [⟨1, "Main Hall", "1 A St", "Springfield", "IL"⟩],
        userFavorites := [⟨50, 100, .venue, 1⟩, ⟨52, 101, .venue, 1⟩,
          ⟨53, 100, .event, 10⟩] } = .error .recordNotFound := by
  have h := (merge_atomic_and_at_most_once .venues 1 2 sampleDB).2
    { sampleDB with
        events := [⟨10, "Fair", "d", 1, 20, 5⟩, ⟨11, "Fair", "d", 1, 20, 7⟩],
        venues := [⟨1, "Main Hall", "1 A St", "Springfield", "IL"⟩],
        userFavorites := [⟨50, 100, .venue, 1⟩, ⟨52, 101, .venue, 1⟩,
          ⟨53, 100, .event, 10⟩] }
    ⟨true, { events := some 1, favorites := 1 }, 2⟩ (by decide)
  exact h.2

end TakeMeToTheFair
